import Mathlib

/-!
Hitori: frame pacing, command submission and resource loading.

A shallow embedding of the frame loop of `Source/Renderer.cpp`, of the
command pool registry of `Source/VK/CommandPoolManager.cpp`, of the queue and
pool requests of `Source/VK/VulkanInstance.cpp`, of the asset files of
`Source/AssetContext.cpp`, of the shader loading of
`Source/VK/ShaderModule.cpp` and of the default resources of
`Source/Application/Context.cpp`, with the properties of the design document
stated over it.

Calls made on collaborators (swapchain, fences, pools, command buffers, the
Vulkan instance) are recorded, in program order, as a list of `Effect`s.
Objects created once and addressed by reference (fences, semaphores, pools)
are identified by the data that distinguishes them at construction.
-/

namespace sy

/-! ## Data model -/

/-- Queue classes of `EQueueType`. -/
inductive EQueueType
  | Graphics
  | Compute
  | Transfer
  | Present
  deriving DecidableEq, Repr

/-- A `Fence` object. `Renderer::Renderer` creates one per frame index,
named "Render Fence {frameIdx}"; the index identifies the object. -/
structure Fence where
  frameIdx : Nat
  deriving DecidableEq, Repr

/-- The two semaphores `Renderer::Renderer` creates per frame index. -/
inductive SemaphoreKind
  | Render
  | Present
  deriving DecidableEq, Repr

/-- A `Semaphore` object, "Render Semaphore {frameIdx}" or
"Present Semaphore {frameIdx}". -/
structure Semaphore where
  kind : SemaphoreKind
  frameIdx : Nat
  deriving DecidableEq, Repr

/-- One entry of `Renderer::frames`. -/
structure Frame where
  renderFence : Fence
  renderSemaphore : Semaphore
  presentSemaphore : Semaphore
  deriving DecidableEq, Repr

/-- A `CommandPool` object: `id` stands for the address returned by the
allocation that created it, `queueType` is the constructor argument. -/
structure CommandPool where
  id : Nat
  queueType : EQueueType
  deriving DecidableEq, Repr

/-- A `CommandBuffer`: its label, the pool it was requested from, its queue
type and its dependency fence (`CommandBuffer.h`). -/
structure CommandBuffer where
  name : String
  pool : CommandPool
  queueType : EQueueType
  dependencyFence : Fence
  deriving DecidableEq, Repr

/-- Image layouts used by `Renderer::Render`. They are four different values
of the enumeration `VkImageLayout` (0, 2, 1000314001 and 1000001002 in the
Vulkan headers). -/
inductive VkImageLayout
  | VK_IMAGE_LAYOUT_UNDEFINED
  | VK_IMAGE_LAYOUT_COLOR_ATTACHMENT_OPTIMAL
  | VK_IMAGE_LAYOUT_ATTACHMENT_OPTIMAL
  | VK_IMAGE_LAYOUT_PRESENT_SRC_KHR
  deriving DecidableEq, Repr

/-- Value of `VK_ACCESS_COLOR_ATTACHMENT_WRITE_BIT`. -/
def VK_ACCESS_COLOR_ATTACHMENT_WRITE_BIT : Nat := 0x100

/-- Value of `VK_PIPELINE_STAGE_TOP_OF_PIPE_BIT`. -/
def VK_PIPELINE_STAGE_TOP_OF_PIPE_BIT : Nat := 0x1

/-- Value of `VK_PIPELINE_STAGE_COLOR_ATTACHMENT_OUTPUT_BIT`. -/
def VK_PIPELINE_STAGE_COLOR_ATTACHMENT_OUTPUT_BIT : Nat := 0x400

/-- Value of `VK_PIPELINE_STAGE_BOTTOM_OF_PIPE_BIT`. -/
def VK_PIPELINE_STAGE_BOTTOM_OF_PIPE_BIT : Nat := 0x2000

/-- The fields of `VkImageMemoryBarrier` that `Render` sets; a field the
designated initialiser leaves out is zero. -/
structure VkImageMemoryBarrier where
  srcAccessMask : Nat
  dstAccessMask : Nat
  oldLayout : VkImageLayout
  newLayout : VkImageLayout
  image : Nat
  deriving DecidableEq, Repr

/-- The fields of `VkRenderingAttachmentInfoKHR` that `Render` sets, the
clear colour (floating point) apart. -/
structure VkRenderingAttachmentInfoKHR where
  imageView : Nat
  imageLayout : VkImageLayout
  deriving DecidableEq, Repr

/-- The fields of `VkRenderingInfo` that `Render` sets. -/
structure VkRenderingInfo where
  width : Nat
  height : Nat
  layerCount : Nat
  colorAttachments : List VkRenderingAttachmentInfoKHR
  deriving DecidableEq, Repr

/-- A call made on a collaborator, with its arguments. -/
inductive Effect
  | AcquireNext (signal : Semaphore)
  | Wait (fence : Fence)
  | Reset (fence : Fence)
  | RequestGraphicsCommandPool (result : CommandPool)
  | RequestComputeCommandPool (result : CommandPool)
  | RequestCommandBuffer (pool : CommandPool) (name : String) (fence : Fence)
  | End (cmdBuffer : CommandBuffer)
  | CmdPipelineBarrier (cmdBuffer : CommandBuffer) (srcStage dstStage : Nat)
      (barrier : VkImageMemoryBarrier)
  | BeginRendering (cmdBuffer : CommandBuffer) (info : VkRenderingInfo)
  | EndRendering (cmdBuffer : CommandBuffer)
  | SubmitTo (type : EQueueType) (waitSemaphores : List Semaphore)
      (batch : List CommandBuffer) (signalSemaphores : List Semaphore)
      (waitStage : Nat) (fence : Fence)
  | Present (waitSemaphore : Semaphore)
  | IncrementCurrentFrames
  deriving DecidableEq, Repr

/-! ## Renderer -/

/-- State of a `Renderer`: the frame array and the frame counter. The counter
is declared in `Renderer.h`, which is not among the sources; it is taken as an
unbounded natural number, the monotonically increasing counter of the design
document. -/
structure Renderer where
  frames : List Frame
  currentFrames : Nat
  deriving DecidableEq, Repr

/-- The frame that the constructor loop builds for `frameIdx`. -/
def Frame.create (frameIdx : Nat) : Frame :=
  { renderFence := ⟨frameIdx⟩
    renderSemaphore := ⟨SemaphoreKind.Render, frameIdx⟩
    presentSemaphore := ⟨SemaphoreKind.Present, frameIdx⟩ }

instance : Inhabited Frame := ⟨Frame.create 0⟩

/-- The constructor `Renderer::Renderer`, for `NumMaxInFlightFrames` frames.
The frame counter starts at 0. -/
def Renderer.create (NumMaxInFlightFrames : Nat) : Renderer :=
  { frames := (List.range NumMaxInFlightFrames).map Frame.create
    currentFrames := 0 }

/-- Modelled from the spec: `Renderer::GetCurrentFrame`, declared in
`Renderer.h`, which is not among the sources. The current slot index is the
frame counter modulo the number of in-flight frames, and the current frame is
the entry of `frames` at that index. -/
def Renderer.GetCurrentFrame (r : Renderer) : Frame :=
  r.frames.getD (r.currentFrames % r.frames.length) default

/-- What `Render` reads from its collaborators: the window extent, the
current swapchain image and view, and the pools that
`vulkanInstance.RequestGraphicsCommandPool()` and
`vulkanInstance.RequestComputeCommandPool()` return. -/
structure RenderEnv where
  width : Nat
  height : Nat
  swapchainImage : Nat
  swapchainImageView : Nat
  graphicsCmdPool : CommandPool
  computeCmdPool : CommandPool
  deriving DecidableEq, Repr

/-- Modelled from the spec: `CommandPool::RequestCommandBuffer` and the
`CommandBuffer` constructor (`CommandPool.cpp` and `CommandBuffer.cpp` are not
among the sources). The buffer is bound to the queue type of the pool and
guarded by the fence passed in. A request returns an idle buffer, so the two
requests of one frame return different buffers; they are told apart by their
label. -/
def CommandPool.RequestCommandBuffer (pool : CommandPool) (name : String)
    (fence : Fence) : CommandBuffer :=
  { name := name, pool := pool, queueType := pool.queueType, dependencyFence := fence }

/-- `Renderer::FrameBegin`: the calls it makes and the frame it returns. -/
def Renderer.FrameBegin (r : Renderer) : List Effect × Frame :=
  let currentFrame := r.GetCurrentFrame
  ([ Effect.AcquireNext currentFrame.presentSemaphore,
     Effect.Wait currentFrame.renderFence,
     Effect.Reset currentFrame.renderFence ],
   currentFrame)

/-- `Renderer::FrameEnd`: the counter is incremented. -/
def Renderer.FrameEnd (r : Renderer) (_currentFrame : Frame) : List Effect × Renderer :=
  ([Effect.IncrementCurrentFrames], { r with currentFrames := r.currentFrames + 1 })

/-- `Renderer::Render`: the calls it makes, in program order, and the
renderer state it leaves. -/
def Renderer.Render (r : Renderer) (env : RenderEnv) : List Effect × Renderer :=
  let (beginEffects, frame) := r.FrameBegin
  let graphicsCmdPool := env.graphicsCmdPool
  let graphicsCmdBuffer :=
    graphicsCmdPool.RequestCommandBuffer "Render Cmd Buffer" frame.renderFence
  let graphicsCmdBufferBatch0 : List CommandBuffer := [graphicsCmdBuffer]
  let computeCmdPool := env.computeCmdPool
  let computeCmdBuffer :=
    computeCmdPool.RequestCommandBuffer "Compute Buffer" frame.renderFence
  let graphicsCmdBufferBatch := graphicsCmdBufferBatch0 ++ [computeCmdBuffer]
  let colorAttachmentImgMemoryBarrier : VkImageMemoryBarrier :=
    { srcAccessMask := 0
      dstAccessMask := VK_ACCESS_COLOR_ATTACHMENT_WRITE_BIT
      oldLayout := VkImageLayout.VK_IMAGE_LAYOUT_UNDEFINED
      newLayout := VkImageLayout.VK_IMAGE_LAYOUT_COLOR_ATTACHMENT_OPTIMAL
      image := env.swapchainImage }
  let colorAttachmentInfo : VkRenderingAttachmentInfoKHR :=
    { imageView := env.swapchainImageView
      imageLayout := VkImageLayout.VK_IMAGE_LAYOUT_ATTACHMENT_OPTIMAL }
  let renderingInfo : VkRenderingInfo :=
    { width := env.width, height := env.height, layerCount := 1
      colorAttachments := [colorAttachmentInfo] }
  let presentImgMemoryBarrier : VkImageMemoryBarrier :=
    { srcAccessMask := VK_ACCESS_COLOR_ATTACHMENT_WRITE_BIT
      dstAccessMask := 0
      oldLayout := VkImageLayout.VK_IMAGE_LAYOUT_COLOR_ATTACHMENT_OPTIMAL
      newLayout := VkImageLayout.VK_IMAGE_LAYOUT_PRESENT_SRC_KHR
      image := env.swapchainImage }
  let waitSemaphores := [frame.presentSemaphore]
  let signalSemaphores := [frame.renderSemaphore]
  let (endEffects, r1) := r.FrameEnd frame
  (beginEffects ++
   [ Effect.RequestGraphicsCommandPool graphicsCmdPool,
     Effect.RequestCommandBuffer graphicsCmdPool "Render Cmd Buffer" frame.renderFence,
     Effect.RequestComputeCommandPool computeCmdPool,
     Effect.RequestCommandBuffer computeCmdPool "Compute Buffer" frame.renderFence,
     Effect.End (graphicsCmdBufferBatch.getLastD graphicsCmdBuffer),
     Effect.CmdPipelineBarrier graphicsCmdBuffer VK_PIPELINE_STAGE_TOP_OF_PIPE_BIT
       VK_PIPELINE_STAGE_COLOR_ATTACHMENT_OUTPUT_BIT colorAttachmentImgMemoryBarrier,
     Effect.BeginRendering graphicsCmdBuffer renderingInfo,
     Effect.EndRendering graphicsCmdBuffer,
     Effect.CmdPipelineBarrier graphicsCmdBuffer VK_PIPELINE_STAGE_COLOR_ATTACHMENT_OUTPUT_BIT
       VK_PIPELINE_STAGE_BOTTOM_OF_PIPE_BIT presentImgMemoryBarrier,
     Effect.End graphicsCmdBuffer,
     Effect.SubmitTo EQueueType.Graphics waitSemaphores graphicsCmdBufferBatch
       signalSemaphores VK_PIPELINE_STAGE_COLOR_ATTACHMENT_OUTPUT_BIT frame.renderFence,
     Effect.Present frame.renderSemaphore ] ++
   endEffects,
   r1)

/-- The renderer after one `Render` call per entry of `envs`. -/
def Renderer.RenderAll (r : Renderer) : List RenderEnv → Renderer
  | [] => r
  | env :: envs => Renderer.RenderAll (r.Render env).2 envs

/-- The frames that `FrameBegin` hands to the successive `Render` calls of
`RenderAll`. -/
def Renderer.framesUsed (r : Renderer) : List RenderEnv → List Frame
  | [] => []
  | env :: envs => r.FrameBegin.2 :: Renderer.framesUsed (r.Render env).2 envs

/-! ## Reading a list of effects -/

/-- The fences passed to a call. -/
def Effect.fences : Effect → List Fence
  | .Wait f => [f]
  | .Reset f => [f]
  | .RequestCommandBuffer _ _ f => [f]
  | .SubmitTo _ _ _ _ _ f => [f]
  | _ => []

/-- The semaphores passed to a call. -/
def Effect.semaphores : Effect → List Semaphore
  | .AcquireNext s => [s]
  | .SubmitTo _ w _ s _ _ => w ++ s
  | .Present s => [s]
  | _ => []

/-- The command pools a call returns, is made on, or reaches through a
command buffer. -/
def Effect.pools : Effect → List CommandPool
  | .RequestGraphicsCommandPool p => [p]
  | .RequestComputeCommandPool p => [p]
  | .RequestCommandBuffer p _ _ => [p]
  | .End cb => [cb.pool]
  | .CmdPipelineBarrier cb _ _ _ => [cb.pool]
  | .BeginRendering cb _ => [cb.pool]
  | .EndRendering cb => [cb.pool]
  | .SubmitTo _ _ batch _ _ _ => batch.map (fun cb => cb.pool)
  | _ => []

/-- Whether a call uses the render fence or the render semaphore of `frame`,
or any command pool. -/
def Effect.usesFenceRenderSemaphoreOrPool (frame : Frame) (e : Effect) : Bool :=
  decide (frame.renderFence ∈ e.fences) || decide (frame.renderSemaphore ∈ e.semaphores)
    || !e.pools.isEmpty

/-- Whether a call uses a synchronisation resource of `frame` (render fence,
render semaphore, present semaphore) or any command pool. -/
def Effect.usesSlotResource (frame : Frame) (e : Effect) : Bool :=
  e.usesFenceRenderSemaphoreOrPool frame || decide (frame.presentSemaphore ∈ e.semaphores)

/-- A fence wait. -/
def Effect.isWait : Effect → Bool
  | .Wait _ => true
  | _ => false

/-- A fence reset. -/
def Effect.isReset : Effect → Bool
  | .Reset _ => true
  | _ => false

/-- A command pool request, a command buffer request, or a command recorded
into (or ending) a command buffer. -/
def Effect.isRequestOrRecording : Effect → Bool
  | .RequestGraphicsCommandPool _ => true
  | .RequestComputeCommandPool _ => true
  | .RequestCommandBuffer _ _ _ => true
  | .End _ => true
  | .CmdPipelineBarrier _ _ _ _ => true
  | .BeginRendering _ _ => true
  | .EndRendering _ => true
  | _ => false

/-- A queue submission. -/
def Effect.isSubmitTo : Effect → Bool
  | .SubmitTo _ _ _ _ _ _ => true
  | _ => false

/-- A present call. -/
def Effect.isPresent : Effect → Bool
  | .Present _ => true
  | _ => false

/-- The target queue type and the queue types of the batch of every
submission of a list of effects. -/
def submittedQueueTypes : List Effect → List (EQueueType × List EQueueType)
  | [] => []
  | .SubmitTo type _ batch _ _ _ :: es =>
    (type, batch.map (fun cb => cb.queueType)) :: submittedQueueTypes es
  | _ :: es => submittedQueueTypes es

/-- The wait-semaphore list of every submission of a list of effects. -/
def submittedWaitSemaphores : List Effect → List (List Semaphore)
  | [] => []
  | .SubmitTo _ w _ _ _ _ :: es => w :: submittedWaitSemaphores es
  | _ :: es => submittedWaitSemaphores es

/-- An environment with a graphics pool and a compute pool. -/
def sampleEnv : RenderEnv :=
  { width := 800, height := 600, swapchainImage := 7, swapchainImageView := 8
    graphicsCmdPool := { id := 0, queueType := EQueueType.Graphics }
    computeCmdPool := { id := 1, queueType := EQueueType.Compute } }

/-- The batch of every submission of a list of effects. -/
def submittedBatches : List Effect → List (List CommandBuffer)
  | [] => []
  | .SubmitTo _ _ batch _ _ _ :: es => batch :: submittedBatches es
  | _ :: es => submittedBatches es

/-- The fence every submission of a list of effects is given to signal. -/
def submittedFences : List Effect → List Fence
  | [] => []
  | .SubmitTo _ _ _ _ _ f :: es => f :: submittedFences es
  | _ :: es => submittedFences es

/-- The command buffers that the buffer requests of a list of effects return,
in request order. -/
def requestedBuffers : List Effect → List CommandBuffer
  | [] => []
  | .RequestCommandBuffer pool name fence :: es =>
    pool.RequestCommandBuffer name fence :: requestedBuffers es
  | _ :: es => requestedBuffers es

/-- The dependency fences passed to the buffer requests of a list of effects,
in request order. -/
def requestedFences : List Effect → List Fence
  | [] => []
  | .RequestCommandBuffer _ _ fence :: es => fence :: requestedFences es
  | _ :: es => requestedFences es

/-- Whether a call requests the command buffer `cb`. -/
def Effect.requests (cb : CommandBuffer) : Effect → Bool
  | .RequestCommandBuffer pool name fence => decide (pool.RequestCommandBuffer name fence = cb)
  | _ => false

/-- Whether a call records a command (pipeline barrier, `BeginRendering`,
`EndRendering`) into the command buffer `cb`. -/
def Effect.recordsInto (cb : CommandBuffer) : Effect → Bool
  | .CmdPipelineBarrier c _ _ _ => decide (c = cb)
  | .BeginRendering c _ => decide (c = cb)
  | .EndRendering c => decide (c = cb)
  | _ => false

/-- Whether a call is `End()` on the command buffer `cb`. -/
def Effect.ends (cb : CommandBuffer) : Effect → Bool
  | .End c => decide (c = cb)
  | _ => false

/-- The image memory barriers recorded by a list of effects, in order. -/
def recordedBarriers : List Effect → List VkImageMemoryBarrier
  | [] => []
  | .CmdPipelineBarrier _ _ _ b :: es => b :: recordedBarriers es
  | _ :: es => recordedBarriers es

/-- The image layouts declared for the colour attachments of the
`BeginRendering` calls of a list of effects, in order. -/
def declaredAttachmentLayouts : List Effect → List VkImageLayout
  | [] => []
  | .BeginRendering _ info :: es =>
    info.colorAttachments.map (fun a => a.imageLayout) ++ declaredAttachmentLayouts es
  | _ :: es => declaredAttachmentLayouts es

/-! ## Command pool manager -/

namespace vk

/-- Identity of an execution thread. -/
abbrev ThreadId := Nat

/-- The state that all `CommandPoolManager` objects of a process share: the
`thread_local` tables `localCmdPools` of all threads, and the number of
`CommandPool` objects allocated so far (the next allocation returns a pool
distinct from all earlier ones). The table is declared inside
`RequestCommandPool`, so a thread has one table whatever manager it calls,
and the table outlives every manager. An absent key of a table is `none`; a
table value is the array of pool pointers, `none` being the null pointer. -/
structure ProcessState where
  localCmdPools : ThreadId → EQueueType → Option (List (Option CommandPool))
  allocated : Nat

/-- A process in which `RequestCommandPool` has not been called yet: every
table is empty. -/
def ProcessState.start : ProcessState :=
  { localCmdPools := fun _ _ => none
    allocated := 0 }

/-- The registry `cmdPools` of one `CommandPoolManager`, a member of the
manager, together with the state of its process: the `thread_local` tables
and the number of pools allocated. -/
structure ManagerState where
  cmdPools : List (List CommandPool)
  localCmdPools : ThreadId → EQueueType → Option (List (Option CommandPool))
  allocated : Nat

/-- The state of the process of a manager. -/
def ManagerState.process (st : ManagerState) : ProcessState :=
  { localCmdPools := st.localCmdPools
    allocated := st.allocated }

/-- The constructor `CommandPoolManager::CommandPoolManager`, for
`NumMaxInFlightFrames` slots, run in a process in state `p`: the registry
lists of the new manager are empty; the thread tables and the allocations of
the process are left as they are. -/
def ManagerState.create (NumMaxInFlightFrames : Nat) (p : ProcessState) : ManagerState :=
  { cmdPools := List.replicate NumMaxInFlightFrames []
    localCmdPools := p.localCmdPools
    allocated := p.allocated }

/-- The pointer stored at `localCmdPools[queueType][idx]` of a thread, `none`
when the key is absent, the index is out of range or the pointer is null. -/
def ManagerState.entry (st : ManagerState) (thread : ThreadId) (queueType : EQueueType)
    (idx : Nat) : Option CommandPool :=
  (st.localCmdPools thread queueType).bind (fun arr => (arr[idx]?).join)

/-- One iteration of the loop of `RequestCommandPool`: a pool is allocated,
stored in the calling thread's table and appended to the slot's registry
list. Indexing the table with an absent key inserts an array of null
pointers. -/
def RequestCommandPool.loopBody (NumMaxInFlightFrames : Nat) (thread : ThreadId)
    (queueType : EQueueType) (st : ManagerState) (inFlightFrameIdx : Nat) : ManagerState :=
  let newCmdPool : CommandPool := { id := st.allocated, queueType := queueType }
  let arr := (st.localCmdPools thread queueType).getD (List.replicate NumMaxInFlightFrames none)
  { cmdPools := List.modify (fun v => v ++ [newCmdPool]) inFlightFrameIdx st.cmdPools
    localCmdPools := fun t q =>
      if t = thread ∧ q = queueType then some (arr.set inFlightFrameIdx (some newCmdPool))
      else st.localCmdPools t q
    allocated := st.allocated + 1 }

/-- `CommandPoolManager::RequestCommandPool(queueType)` called on `thread`
while the frame tracker reports `currentInFlightFrameIndex`: the pool
returned and the state left. -/
def RequestCommandPool (NumMaxInFlightFrames : Nat) (st : ManagerState) (thread : ThreadId)
    (queueType : EQueueType) (currentInFlightFrameIndex : Nat) :
    Option CommandPool × ManagerState :=
  let st1 :=
    if (st.localCmdPools thread queueType).isSome then st
    else (List.range NumMaxInFlightFrames).foldl
      (RequestCommandPool.loopBody NumMaxInFlightFrames thread queueType) st
  (st1.entry thread queueType currentInFlightFrameIndex, st1)

/-- `CommandPoolManager::BeginFrame()` while the frame tracker reports
`currentInFlightFrameIndex`: the pools on which `CommandPool::BeginFrame` is
called, in call order, and the state left. -/
def BeginFrame (st : ManagerState) (currentInFlightFrameIndex : Nat) :
    List CommandPool × ManagerState :=
  let frameDependCmdPools := st.cmdPools.getD currentInFlightFrameIndex []
  (frameDependCmdPools.map (fun cmdPool => cmdPool), st)

/-- One call of `RequestCommandPool`: who calls, for which queue type, at
which slot index. -/
structure PoolRequest where
  thread : ThreadId
  queueType : EQueueType
  currentInFlightFrameIndex : Nat
  deriving DecidableEq, Repr

/-- The (thread, queue type) pair of a request. -/
def PoolRequest.pair (c : PoolRequest) : ThreadId × EQueueType := (c.thread, c.queueType)

/-- The state after a sequence of `RequestCommandPool` calls. -/
def requestAll (NumMaxInFlightFrames : Nat) (st : ManagerState) :
    List PoolRequest → ManagerState
  | [] => st
  | c :: cs =>
    requestAll NumMaxInFlightFrames
      (RequestCommandPool NumMaxInFlightFrames st c.thread c.queueType
        c.currentInFlightFrameIndex).2 cs

/-- Adds a pair to a list of pairs unless it is there already. -/
def addPair (ps : List (ThreadId × EQueueType)) (c : PoolRequest) :
    List (ThreadId × EQueueType) :=
  if c.pair ∈ ps then ps else ps ++ [c.pair]

/-- The distinct (thread, queue type) pairs of a call sequence, in the order
of their first occurrence. -/
def distinctPairs (calls : List PoolRequest) : List (ThreadId × EQueueType) :=
  calls.foldl addPair []

/-- Position of the first occurrence of a pair in a list of pairs. -/
def pairIndex (ps : List (ThreadId × EQueueType)) (p : ThreadId × EQueueType) : Nat :=
  @List.indexOf _ instBEqOfDecidableEq p ps

/-- The pool that the `j`-th distinct pair owns in slot `i`: pools are
allocated `NumMaxInFlightFrames` at a time, in slot order. -/
def poolOf (NumMaxInFlightFrames : Nat) (ps : List (ThreadId × EQueueType))
    (i : Nat) (p : ThreadId × EQueueType) : CommandPool :=
  { id := pairIndex ps p * NumMaxInFlightFrames + i, queueType := p.2 }

/-- Closed form of the state reached once the pairs `ps` have been served. -/
def stateOf (NumMaxInFlightFrames : Nat) (ps : List (ThreadId × EQueueType)) : ManagerState :=
  { cmdPools := (List.range NumMaxInFlightFrames).map
      (fun i => ps.map (poolOf NumMaxInFlightFrames ps i))
    localCmdPools := fun t q =>
      if (t, q) ∈ ps then
        some ((List.range NumMaxInFlightFrames).map
          (fun i => some (poolOf NumMaxInFlightFrames ps i (t, q))))
      else none
    allocated := ps.length * NumMaxInFlightFrames }

/-- The state of the process after a succession of managers: each manager is
constructed in the process as its predecessors left it and serves its list of
calls. No manager is destroyed meanwhile: the destructor, which clears the
registry while the thread tables keep their pointers, is not part of the
model. -/
def processAfter (NumMaxInFlightFrames : Nat) (served : List (List PoolRequest)) :
    ProcessState :=
  served.foldl
    (fun p calls =>
      (requestAll NumMaxInFlightFrames (ManagerState.create NumMaxInFlightFrames p)
        calls).process)
    ProcessState.start

/-- The pairs a manager has registered, after one more call: a pair is
registered when no table has it yet. -/
def addOwn (ps own : List (ThreadId × EQueueType)) (c : PoolRequest) :
    List (ThreadId × EQueueType) :=
  if c.pair ∈ ps then own else own ++ [c.pair]

/-- The pairs a manager has registered after a sequence of calls, when `ps`
are the pairs the tables hold and `own` the pairs it registered before. -/
def ownAfter (ps own : List (ThreadId × EQueueType)) :
    List PoolRequest → List (ThreadId × EQueueType)
  | [] => own
  | c :: cs => ownAfter (addPair ps c) (addOwn ps own c) cs

/-- Closed form of the state of a manager that registered the pairs `own`, in
a process whose tables hold the pairs `ps`. -/
def viewOf (NumMaxInFlightFrames : Nat) (ps own : List (ThreadId × EQueueType)) :
    ManagerState :=
  { cmdPools := (List.range NumMaxInFlightFrames).map
      (fun i => own.map (poolOf NumMaxInFlightFrames ps i))
    localCmdPools := (stateOf NumMaxInFlightFrames ps).localCmdPools
    allocated := ps.length * NumMaxInFlightFrames }

/-- Closed form of the state after `k` iterations of the loop of
`RequestCommandPool` for the pair `(t, q)`, started in `viewOf ps own`. -/
def loopState (NumMaxInFlightFrames : Nat) (ps own : List (ThreadId × EQueueType))
    (t : ThreadId) (q : EQueueType) (k : Nat) : ManagerState :=
  { cmdPools := (List.range NumMaxInFlightFrames).map
      (fun i => own.map (poolOf NumMaxInFlightFrames ps i) ++
        if i < k then [⟨ps.length * NumMaxInFlightFrames + i, q⟩] else [])
    localCmdPools := fun t1 q1 =>
      if t1 = t ∧ q1 = q then
        (if k = 0 then none
         else some ((List.range NumMaxInFlightFrames).map
          (fun i => if i < k then some ⟨ps.length * NumMaxInFlightFrames + i, q⟩ else none)))
      else (stateOf NumMaxInFlightFrames ps).localCmdPools t1 q1
    allocated := ps.length * NumMaxInFlightFrames + k }

end vk

end sy

/-! ## Vulkan instance -/

namespace vkb

/-- Queue classes of `vkb::QueueType`. -/
inductive QueueType
  | present
  | graphics
  | compute
  | transfer
  deriving DecidableEq, Repr

/-- What a `vkb::Device` reports: for each queue class a queue handle and a
family index, or nothing. -/
structure Device where
  get_queue : QueueType → Option Nat
  get_queue_index : QueueType → Option Nat

end vkb

namespace sy

/-- The members of `VulkanInstance` that queue and pool requests use: the
queue handles and family indices, the four pool lists (`graphicsCmdPools`,
`computeCmdPools`, `transferCmdPools`, `presentCmdPools`, indexed here by the
queue type in their name), the `thread_local` pointer `threadPool` of every
thread (`none` is the null pointer) and the number of pools allocated. -/
structure VulkanInstance where
  graphicsQueue : Nat
  computeQueue : Nat
  transferQueue : Nat
  presentQueue : Nat
  graphicsQueueFamilyIdx : Nat
  computeQueueFamilyIdx : Nat
  transferQueueFamilyIdx : Nat
  presentQueueFamilyIdx : Nat
  cmdPoolLists : EQueueType → List CommandPool
  threadPool : Nat → Option CommandPool
  allocated : Nat

/-- An instance before `InitCommandPools`: null queue handles, empty pool
lists, no thread has a pool. -/
def VulkanInstance.fresh : VulkanInstance :=
  { graphicsQueue := 0, computeQueue := 0, transferQueue := 0, presentQueue := 0
    graphicsQueueFamilyIdx := 0, computeQueueFamilyIdx := 0
    transferQueueFamilyIdx := 0, presentQueueFamilyIdx := 0
    cmdPoolLists := fun _ => []
    threadPool := fun _ => none
    allocated := 0 }

/-- `VulkanInstance::GetQueueFamilyIndex`. -/
def VulkanInstance.GetQueueFamilyIndex (inst : VulkanInstance) (queue : EQueueType) : Nat :=
  match queue with
  | EQueueType.Graphics => inst.graphicsQueueFamilyIdx
  | EQueueType.Compute => inst.computeQueueFamilyIdx
  | EQueueType.Transfer => inst.transferQueueFamilyIdx
  | EQueueType.Present => inst.presentQueueFamilyIdx

/-- `VulkanInstance::GetQueue`. -/
def VulkanInstance.GetQueue (inst : VulkanInstance) (queue : EQueueType) : Nat :=
  match queue with
  | EQueueType.Graphics => inst.graphicsQueue
  | EQueueType.Compute => inst.computeQueue
  | EQueueType.Transfer => inst.transferQueue
  | EQueueType.Present => inst.presentQueue

/-- `VulkanInstance::RequestCommandPool(queueType, poolList, listMutex)` called
on `thread`; `poolList` names the pool list passed by reference. The pool
returned and the instance left. -/
def VulkanInstance.RequestCommandPool (inst : VulkanInstance) (thread : Nat)
    (queueType : EQueueType) (poolList : EQueueType) : CommandPool × VulkanInstance :=
  match inst.threadPool thread with
  | some threadPool => (threadPool, inst)
  | none =>
    let threadPool : CommandPool := { id := inst.allocated, queueType := queueType }
    (threadPool,
     { inst with
       threadPool := fun t => if t = thread then some threadPool else inst.threadPool t
       cmdPoolLists := fun l =>
         if l = poolList then inst.cmdPoolLists l ++ [threadPool] else inst.cmdPoolLists l
       allocated := inst.allocated + 1 })

/-- Modelled from the spec: `VulkanInstance::RequestGraphicsCommandPool`,
declared in `VulkanInstance.h`, which is not among the sources. It is the
request for a pool of the graphics queue type, owned by `graphicsCmdPools`. -/
def VulkanInstance.RequestGraphicsCommandPool (inst : VulkanInstance) (thread : Nat) :
    CommandPool × VulkanInstance :=
  inst.RequestCommandPool thread EQueueType.Graphics EQueueType.Graphics

/-- Modelled from the spec: `VulkanInstance::RequestComputeCommandPool`,
declared in `VulkanInstance.h`, which is not among the sources. It is the
request for a pool of the compute queue type, owned by `computeCmdPools`. -/
def VulkanInstance.RequestComputeCommandPool (inst : VulkanInstance) (thread : Nat) :
    CommandPool × VulkanInstance :=
  inst.RequestCommandPool thread EQueueType.Compute EQueueType.Compute

/-- `VulkanInstance::InitCommandPools(vkbDevice)` run on `thread`. A failed
assertion, or `value()` of an absent result, gives `none`. The two command
buffers requested from the test pool at the end leave the instance as it
is. -/
def VulkanInstance.InitCommandPools (inst : VulkanInstance) (thread : Nat)
    (vkbDevice : vkb.Device) : Option VulkanInstance := do
  let graphicsQueueRes ← vkbDevice.get_queue vkb.QueueType.graphics
  let graphicsQueueFamilyIdx ← vkbDevice.get_queue_index vkb.QueueType.graphics
  let inst1 := { inst with graphicsQueue := graphicsQueueRes
                           graphicsQueueFamilyIdx := graphicsQueueFamilyIdx }
  let computeQueueRes ← vkbDevice.get_queue vkb.QueueType.compute
  let computeQueueFamilyIdx ← vkbDevice.get_queue_index vkb.QueueType.compute
  let inst2 := { inst1 with computeQueue := computeQueueRes
                            computeQueueFamilyIdx := computeQueueFamilyIdx }
  let _transferQueueRes ← vkbDevice.get_queue vkb.QueueType.transfer
  let transferQueueFamilyIdx ← vkbDevice.get_queue_index vkb.QueueType.transfer
  let inst3 := { inst2 with transferQueue := computeQueueRes
                            transferQueueFamilyIdx := transferQueueFamilyIdx }
  let presentQueueRes ← vkbDevice.get_queue vkb.QueueType.present
  let presentQueueFamilyIdx ← vkbDevice.get_queue_index vkb.QueueType.present
  let inst4 := { inst3 with presentQueue := presentQueueRes
                            presentQueueFamilyIdx := presentQueueFamilyIdx }
  let (_test, inst5) := inst4.RequestGraphicsCommandPool thread
  pure inst5

/-- What `Render`, run on `thread`, reads from its collaborators when its two
pool requests are served by this instance, and the instance left. -/
def VulkanInstance.renderEnv (inst : VulkanInstance) (thread : Nat)
    (width height swapchainImage swapchainImageView : Nat) : RenderEnv × VulkanInstance :=
  let (graphicsCmdPool, inst1) := inst.RequestGraphicsCommandPool thread
  let (computeCmdPool, inst2) := inst1.RequestComputeCommandPool thread
  ({ width := width, height := height, swapchainImage := swapchainImage
     swapchainImageView := swapchainImageView
     graphicsCmdPool := graphicsCmdPool, computeCmdPool := computeCmdPool }, inst2)

/-- A device with four different queues in four different families. -/
def sampleDevice : vkb.Device :=
  { get_queue := fun q =>
      match q with
      | vkb.QueueType.graphics => some 101
      | vkb.QueueType.compute => some 102
      | vkb.QueueType.transfer => some 103
      | vkb.QueueType.present => some 104
    get_queue_index := fun q =>
      match q with
      | vkb.QueueType.graphics => some 0
      | vkb.QueueType.compute => some 1
      | vkb.QueueType.transfer => some 2
      | vkb.QueueType.present => some 3 }

/-! ## Shader module -/

/-- What the constructor `ShaderModule::ShaderModule` does with a shader file
of `fileSize` bytes: the size in bytes of the word buffer it allocates, the
number of bytes it reads from the file into that buffer, and the `codeSize`
it passes to `vkCreateShaderModule`. -/
structure ShaderModuleLoad where
  bufferBytes : Nat
  bytesRead : Nat
  codeSize : Nat
  deriving DecidableEq, Repr

/-- Size of `uint32_t` in bytes. -/
def sizeofUint32 : Nat := 4

/-- The constructor `ShaderModule::ShaderModule` on a file of `fileSize`
bytes: `buffer` has `fileSize / sizeof(uint32_t)` words, `file.read` is asked
for `fileSize` bytes, which the file has, and `codeSize` is
`buffer.size() * sizeof(uint32_t)`. -/
def ShaderModule.create (fileSize : Nat) : ShaderModuleLoad :=
  let bufferSize := fileSize / sizeofUint32
  { bufferBytes := bufferSize * sizeofUint32
    bytesRead := fileSize
    codeSize := bufferSize * sizeofUint32 }

end sy

/-! ## Asset files -/

namespace sy

/-- An `AssetContext::Asset`: the type identifier (a character array), the
version, and the metadata and blob bytes. Bytes are numbers below 256. -/
structure Asset where
  TypeIdentifier : List Nat
  Version : Nat
  Metadata : List Nat
  Blob : List Nat
  deriving DecidableEq, Repr

/-- The `size` bytes of the object representation of the unsigned integer
`n`, least significant byte first. -/
def toBytes (n : Nat) : Nat → List Nat
  | 0 => []
  | size + 1 => n % 256 :: toBytes (n / 256) size

/-- The unsigned integer whose object representation is `bytes`. -/
def ofBytes : List Nat → Nat
  | [] => 0
  | b :: bs => b + 256 * ofBytes bs

/-- Size of `size_t` in bytes. -/
def sizeofSizeT : Nat := 8

/-- The files of the file system: the bytes of the file at each path that
has one. -/
abbrev FileSystem := String → Option (List Nat)

/-- An input file stream: the bytes not yet read, and whether no read has
failed so far. -/
structure IStream where
  remaining : List Nat
  good : Bool
  deriving DecidableEq, Repr

/-- The call `read(dst, n)` of `std::istream` on a destination that holds the
bytes `dst`: when the stream is good, `n` bytes are stored if that many
remain, otherwise the remaining ones are stored and the stream fails; when
the stream has failed, nothing is stored. The destination afterwards and the
stream afterwards. -/
def IStream.read (s : IStream) (dst : List Nat) (n : Nat) : List Nat × IStream :=
  if s.good then
    if n ≤ s.remaining.length then
      (s.remaining.take n ++ dst.drop n, { remaining := s.remaining.drop n, good := true })
    else
      (s.remaining ++ dst.drop s.remaining.length, { remaining := [], good := false })
  else (dst, s)

/-- `AssetContext::SaveBinary(path, asset)`: the value returned and the file
system left. `idLen` is `LengthOfArray(asset.TypeIdentifier)` and `verSize` is
`sizeof(asset.Version)`, both fixed by `AssetContext.h`, which is not among
the sources. -/
def SaveBinary (idLen verSize : Nat) (fs : FileSystem) (path : String) (asset : Asset) :
    Bool × FileSystem :=
  let out0 : List Nat := []
  let out1 := out0 ++ asset.TypeIdentifier.take idLen
  let version := asset.Version
  let out2 := out1 ++ toBytes version verSize
  let metadataSize := asset.Metadata.length
  let out3 := out2 ++ toBytes metadataSize sizeofSizeT
  let blobSize := asset.Blob.length
  let out4 := out3 ++ toBytes blobSize sizeofSizeT
  (true, fun p => if p = path then some out4 else fs p)

/-- `AssetContext::LoadBinary(path)`: `none` when the file cannot be opened.
The members of the default-constructed `Asset` are taken as zero bytes and
empty containers; `resize` appends zero bytes. -/
def LoadBinary (idLen verSize : Nat) (fs : FileSystem) (path : String) : Option Asset :=
  match fs path with
  | none => none
  | some bytes =>
    let inFileStream0 : IStream := { remaining := bytes, good := true }
    let asset0 : Asset :=
      { TypeIdentifier := List.replicate idLen 0, Version := 0, Metadata := [], Blob := [] }
    let (typeIdentifier, inFileStream1) := inFileStream0.read asset0.TypeIdentifier idLen
    let (versionBytes, inFileStream2) :=
      inFileStream1.read (toBytes asset0.Version verSize) verSize
    let (metadataSizeBytes, inFileStream3) :=
      inFileStream2.read (toBytes asset0.Metadata.length sizeofSizeT) sizeofSizeT
    let metadataSize := ofBytes metadataSizeBytes
    let (blobSizeBytes, inFileStream4) :=
      inFileStream3.read (toBytes asset0.Blob.length sizeofSizeT) sizeofSizeT
    let blobSize := ofBytes blobSizeBytes
    let metadata0 := asset0.Metadata ++ List.replicate (metadataSize - asset0.Metadata.length) 0
    let blob0 := asset0.Blob ++ List.replicate (blobSize - asset0.Blob.length) 0
    let (metadata, inFileStream5) := inFileStream4.read metadata0 metadataSize
    let (blob, _) := inFileStream5.read blob0 blobSize
    some { TypeIdentifier := typeIdentifier, Version := ofBytes versionBytes
           Metadata := metadata, Blob := blob }

/-- An asset with one metadata byte and two blob bytes. -/
def sampleAsset : Asset :=
  { TypeIdentifier := [65, 83, 69, 84], Version := 1, Metadata := [97], Blob := [98, 99] }

/-! ## Default engine resources -/

/-- Modelled from the spec: `vk::TextureBuilder`, which is not among the
sources. A builder keeps the value last given to each of its setters, and
`Build` creates the texture from the values it holds. -/
structure TextureBuilder where
  name : String
  extent : Nat × Nat
  format : Nat
  dataToTransfer : List Nat
  deriving DecidableEq, Repr

/-- The names under which `Context::InitDefaultEngineResources` registers
resources. -/
inductive Alias
  | DefaultWhiteTexture
  | DefaultBlackTexture
  | LinearSamplerRepeat
  | DefaultMaterial
  deriving DecidableEq, Repr

/-- The resources that `Context::InitDefaultEngineResources` creates. Other
resources are referred to by their handle. -/
inductive Resource
  | Texture (built : TextureBuilder)
  | Sampler
  | TextureView (texture : Nat)
  | Descriptor (texture view sampler : Nat)
  | Material (descriptor : Nat)
  deriving DecidableEq, Repr

/-- Modelled from the spec: the resource cache, which is not among the
sources. It holds the resources added, the handle of a resource being its
position, and the aliases set. -/
structure ResourceCache where
  resources : List Resource
  aliases : List (Alias × Nat)
  deriving DecidableEq, Repr

/-- Modelled from the spec: `ResourceCache::Add`, not among the sources. The
handle of the new resource and the cache left. -/
def ResourceCache.Add (cache : ResourceCache) (res : Resource) : Nat × ResourceCache :=
  (cache.resources.length, { cache with resources := cache.resources ++ [res] })

/-- Modelled from the spec: `ResourceCache::SetAlias`, not among the
sources. -/
def ResourceCache.SetAlias (cache : ResourceCache) (key : Alias) (handle : Nat) :
    ResourceCache :=
  { cache with aliases := (key, handle) :: cache.aliases.filter (fun a => a.1 ≠ key) }

/-- The resource registered under an alias. -/
def ResourceCache.resourceOf (cache : ResourceCache) (key : Alias) : Option Resource :=
  (cache.aliases.lookup key).bind (fun handle => cache.resources[handle]?)

/-- Value of `VK_FORMAT_R8G8B8A8_SRGB`. -/
def VK_FORMAT_R8G8B8A8_SRGB : Nat := 43

/-- The array `white` of `Context::InitDefaultEngineResources`. -/
def whiteTexels : List Nat := [0xffffffff, 0xffffffff, 0xffffffff, 0xffffffff]

/-- The array `black` of `Context::InitDefaultEngineResources`. -/
def blackTexels : List Nat := [0x000000ff, 0x000000ff, 0x000000ff, 0x000000ff]

/-- `Context::InitDefaultEngineResources` on a resource cache: the cache
left. -/
def InitDefaultEngineResources (resourceCache : ResourceCache) : ResourceCache :=
  let white := whiteTexels
  let defaultTexBuilder0 : TextureBuilder :=
    { name := "DefaultWhite", extent := (2, 2), format := VK_FORMAT_R8G8B8A8_SRGB
      dataToTransfer := [] }
  let defaultTexBuilder1 := { defaultTexBuilder0 with dataToTransfer := white }
  let (defaultWhiteTex, cache1) := resourceCache.Add (Resource.Texture defaultTexBuilder1)
  let cache2 := cache1.SetAlias Alias.DefaultWhiteTexture defaultWhiteTex
  let _black := blackTexels
  let defaultTexBuilder2 :=
    { defaultTexBuilder1 with name := "DefaultBlack", dataToTransfer := white }
  let (defaultBlackTex, cache3) := cache2.Add (Resource.Texture defaultTexBuilder2)
  let cache4 := cache3.SetAlias Alias.DefaultBlackTexture defaultBlackTex
  let (linearSampler, cache5) := cache4.Add Resource.Sampler
  let cache6 := cache5.SetAlias Alias.LinearSamplerRepeat linearSampler
  let (defaultWhiteTexView, cache7) := cache6.Add (Resource.TextureView defaultWhiteTex)
  let (descriptor, cache8) :=
    cache7.Add (Resource.Descriptor defaultWhiteTex defaultWhiteTexView linearSampler)
  let (defaultMaterial, cache9) := cache8.Add (Resource.Material descriptor)
  cache9.SetAlias Alias.DefaultMaterial defaultMaterial

end sy

/-! ## Frame loop -/

namespace sy

/-- The renderer state that `Render` leaves: the counter is one larger and
the frames are the same. -/
theorem Render_state (r : Renderer) (env : RenderEnv) :
    (r.Render env).2 = { r with currentFrames := r.currentFrames + 1 } := by
  rfl

/-- After the `Render` calls of `envs`, the counter has grown by their number
and the frames are the same. -/
theorem RenderAll_state (envs : List RenderEnv) (r : Renderer) :
    r.RenderAll envs = { r with currentFrames := r.currentFrames + envs.length } := by
  induction envs generalizing r with
  | nil => rfl
  | cons env envs ih =>
    rw [Renderer.RenderAll, ih, Render_state]
    simp only [List.length_cons, Renderer.mk.injEq, true_and]
    omega

/-- The current frame of a renderer built by the constructor is the frame
created for index counter modulo the number of frames. -/
theorem GetCurrentFrame_create (N c : Nat) (hN : 0 < N) :
    Renderer.GetCurrentFrame { frames := (Renderer.create N).frames, currentFrames := c } =
      Frame.create (c % N) := by
  have h : c % N < N := Nat.mod_lt c hN
  simp [Renderer.GetCurrentFrame, Renderer.create, List.getD, List.getElem?_map,
    List.getElem?_range h]

/-- C1, as amended: in every `Render` call the only call that precedes the
`Wait` on the current slot's render fence is `AcquireNext` with the slot's
present semaphore; the first call that uses the slot's render fence, its
render semaphore or any command pool is that `Wait`. -/
theorem C1_first_use_of_fence_semaphore_pool_is_wait (N c : Nat) (env : RenderEnv) :
    let r : Renderer := { frames := (Renderer.create N).frames, currentFrames := c }
    let frame := r.GetCurrentFrame
    (∃ post, (r.Render env).1 =
        Effect.AcquireNext frame.presentSemaphore :: Effect.Wait frame.renderFence :: post) ∧
      (r.Render env).1.find? (Effect.usesFenceRenderSemaphoreOrPool frame) =
        some (Effect.Wait frame.renderFence) := by
  intro r frame
  refine ⟨⟨_, rfl⟩, ?_⟩
  have hk : frame.renderSemaphore ≠ frame.presentSemaphore := by
    show (r.frames.getD _ default).renderSemaphore ≠ (r.frames.getD _ default).presentSemaphore
    rw [List.getD_eq_getElem?_getD]
    cases hq : r.frames[r.currentFrames % r.frames.length]? with
    | none => simp [default, Frame.create]
    | some f =>
      have hmem : f ∈ r.frames := List.mem_iff_getElem?.2 ⟨_, hq⟩
      simp only [r, Renderer.create, List.mem_map] at hmem
      obtain ⟨i, -, rfl⟩ := hmem
      simp [Frame.create]
  show List.find? _ (Effect.AcquireNext frame.presentSemaphore ::
    Effect.Wait frame.renderFence :: _) = _
  rw [List.find?_cons_of_neg, List.find?_cons_of_pos]
  · simp [Effect.usesFenceRenderSemaphoreOrPool, Effect.fences]
  · simp [Effect.usesFenceRenderSemaphoreOrPool, Effect.fences, Effect.semaphores,
      Effect.pools, hk]

/-- C1, as stated, fails: on the first frame of a renderer with two frames in
flight the first call that uses a resource of slot 0 is `AcquireNext` with the
slot's present semaphore, made before the `Wait` on the slot's render fence. -/
theorem C1_first_use_is_not_wait :
    ((Renderer.create 2).Render sampleEnv).1.find?
        (Effect.usesSlotResource (Renderer.create 2).GetCurrentFrame) =
      some (Effect.AcquireNext ⟨SemaphoreKind.Present, 0⟩) ∧
    ((Renderer.create 2).Render sampleEnv).1.find?
        (Effect.usesSlotResource (Renderer.create 2).GetCurrentFrame) ≠
      some (Effect.Wait (Renderer.create 2).GetCurrentFrame.renderFence) := by
  decide

/-- C2: in every `Render` call, `FrameBegin` calls `Wait` and then `Reset` on
the current slot's render fence; these are the only `Wait` and the only
`Reset` of the call; and every command pool request, command buffer request
and recorded command comes after both. -/
theorem C2_wait_then_reset_before_recording (r : Renderer) (env : RenderEnv) :
    let fence := r.GetCurrentFrame.renderFence
    ∃ pre post,
      r.FrameBegin.1 = pre ++ [Effect.Wait fence, Effect.Reset fence] ∧
      (r.Render env).1 = pre ++ [Effect.Wait fence, Effect.Reset fence] ++ post ∧
      (r.Render env).1.filter Effect.isWait = [Effect.Wait fence] ∧
      (r.Render env).1.filter Effect.isReset = [Effect.Reset fence] ∧
      (∀ e ∈ pre, e.isRequestOrRecording = false) ∧
      (r.Render env).1.filter Effect.isRequestOrRecording =
        post.filter Effect.isRequestOrRecording ∧
      (post.filter Effect.isRequestOrRecording).length = 10 := by
  intro fence
  refine ⟨[Effect.AcquireNext r.GetCurrentFrame.presentSemaphore], _, rfl, rfl, rfl, rfl,
    ?_, rfl, rfl⟩
  intro e he
  simp only [List.mem_singleton] at he
  subst he
  rfl

/-- C3: on a renderer built for `N` frames, whose counter starts at 0, after
`k` calls of `Render` the counter is `k` and the frames are unchanged, so the
next call, the `k`-th counting from 0, is handed the frame of slot `k mod N`,
which is below `N`; `Render` and `FrameEnd` add exactly 1 to the counter and
change nothing else; with two frames in flight five consecutive frames use
slots 0, 1, 0, 1, 0. -/
theorem C3_slot_is_counter_mod_N (N : Nat) (hN : 0 < N) (envs : List RenderEnv) :
    let r := (Renderer.create N).RenderAll envs
    r.currentFrames = envs.length ∧
    r.frames = (Renderer.create N).frames ∧
    r.FrameBegin.2 = Frame.create (envs.length % N) ∧
    envs.length % N < N ∧
    (∀ (r0 : Renderer) (env : RenderEnv),
      (r0.Render env).2 = { r0 with currentFrames := r0.currentFrames + 1 }) ∧
    (∀ (r0 : Renderer) (f : Frame),
      (r0.FrameEnd f).2 = { r0 with currentFrames := r0.currentFrames + 1 }) ∧
    (∀ e0 e1 e2 e3 e4 : RenderEnv,
      (Renderer.create 2).framesUsed [e0, e1, e2, e3, e4] =
        [Frame.create 0, Frame.create 1, Frame.create 0, Frame.create 1, Frame.create 0]) := by
  intro r
  have hr : r = { frames := (Renderer.create N).frames, currentFrames := envs.length } := by
    show (Renderer.create N).RenderAll envs = _
    rw [RenderAll_state]
    simp [Renderer.create]
  refine ⟨by rw [hr], by rw [hr], ?_, Nat.mod_lt _ hN, fun _ _ => rfl, fun _ _ => rfl, ?_⟩
  · rw [hr]
    exact GetCurrentFrame_create N envs.length hN
  · intro e0 e1 e2 e3 e4
    simp only [Renderer.framesUsed, Render_state, Renderer.FrameBegin]
    simp [Renderer.create, Renderer.GetCurrentFrame, List.range_succ]

/-- Witness of C3 with two frames in flight and three calls made. -/
theorem C3_slot_is_counter_mod_N_witness :
    0 < 2 ∧
    ((Renderer.create 2).RenderAll [sampleEnv, sampleEnv, sampleEnv]).FrameBegin.2 =
      Frame.create 1 :=
  ⟨by decide,
   (C3_slot_is_counter_mod_N 2 (by decide) [sampleEnv, sampleEnv, sampleEnv]).2.2.1⟩

/-- C8 fails on the code: the batch that `Render` submits to the graphics
queue holds the buffer requested from the compute pool; with a graphics pool
and a compute pool the batch has queue types Graphics and Compute. When the
two pools are served by `VulkanInstance::RequestCommandPool`, both requests
return the first pool of the thread: on a thread whose first pool was a
compute pool the batch has queue types Compute and Compute, on a thread whose
first pool was the graphics pool of `InitCommandPools` it has Graphics and
Graphics. -/
theorem C8_batch_mixes_queue_types :
    (∀ (r : Renderer) (env : RenderEnv),
      submittedQueueTypes (r.Render env).1 =
        [(EQueueType.Graphics, [env.graphicsCmdPool.queueType, env.computeCmdPool.queueType])]) ∧
    submittedQueueTypes ((Renderer.create 2).Render sampleEnv).1 =
      [(EQueueType.Graphics, [EQueueType.Graphics, EQueueType.Compute])] ∧
    submittedQueueTypes ((Renderer.create 2).Render
        ((VulkanInstance.fresh.RequestComputeCommandPool 0).2.renderEnv 0 800 600 7 8).1).1 =
      [(EQueueType.Graphics, [EQueueType.Compute, EQueueType.Compute])] ∧
    (VulkanInstance.fresh.InitCommandPools 0 sampleDevice).map
        (fun inst => submittedQueueTypes
          ((Renderer.create 2).Render (inst.renderEnv 0 800 600 7 8).1).1) =
      some [(EQueueType.Graphics, [EQueueType.Graphics, EQueueType.Graphics])] :=
  ⟨fun _ _ => rfl, rfl, by decide, by decide⟩

/-- C9, as amended: in every `Render` call the wait-semaphore list passed to
`SubmitTo` is exactly the present semaphore of the current slot, the one
`FrameBegin` handed to `AcquireNext` in the same call; so it is on the first
use of the renderer as well. -/
theorem C9_submit_waits_on_current_present_semaphore (r : Renderer) (env : RenderEnv) :
    submittedWaitSemaphores (r.Render env).1 = [[r.GetCurrentFrame.presentSemaphore]] ∧
    (r.Render env).1.head? = some (Effect.AcquireNext r.GetCurrentFrame.presentSemaphore) :=
  ⟨rfl, rfl⟩

/-- C9, as stated, fails: with two frames in flight the first `Render` call
waits on the present semaphore of slot 0 (the list is not empty), and the
second call, which uses slot 1, waits on the present semaphore of slot 1, not
on that of the previous slot (1 + 2 - 1) mod 2 = 0. -/
theorem C9_wait_list_is_not_previous_slot :
    submittedWaitSemaphores ((Renderer.create 2).Render sampleEnv).1 =
      [[⟨SemaphoreKind.Present, 0⟩]] ∧
    submittedWaitSemaphores ((Renderer.create 2).Render sampleEnv).1 ≠ [[]] ∧
    ((Renderer.create 2).Render sampleEnv).2.FrameBegin.2 = Frame.create 1 ∧
    submittedWaitSemaphores
        (((Renderer.create 2).Render sampleEnv).2.Render sampleEnv).1 =
      [[⟨SemaphoreKind.Present, 1⟩]] ∧
    submittedWaitSemaphores
        (((Renderer.create 2).Render sampleEnv).2.Render sampleEnv).1 ≠
      [[(Frame.create ((1 + 2 - 1) % 2)).presentSemaphore]] := by
  decide

/-- C10: in every `Render` call the last three calls are, in this order, the
one `SubmitTo`, which signals exactly the current slot's render semaphore and
the current slot's render fence, the one `Present`, which waits on that render
semaphore, and the counter increment of `FrameEnd`; nothing before them is a
submission, a present or a counter increment. -/
theorem C10_submit_present_then_advance (r : Renderer) (env : RenderEnv) :
    let frame := r.GetCurrentFrame
    ∃ pre waitSemaphores batch waitStage,
      (r.Render env).1 = pre ++
        [ Effect.SubmitTo EQueueType.Graphics waitSemaphores batch [frame.renderSemaphore]
            waitStage frame.renderFence,
          Effect.Present frame.renderSemaphore,
          Effect.IncrementCurrentFrames ] ∧
      (∀ e ∈ pre, e.isSubmitTo = false ∧ e.isPresent = false ∧
        e ≠ Effect.IncrementCurrentFrames) ∧
      ((r.Render env).1.filter Effect.isSubmitTo).length = 1 ∧
      (r.Render env).2.currentFrames = r.currentFrames + 1 := by
  intro frame
  refine ⟨(r.Render env).1.take 13, _, _, _, rfl, ?_, rfl, rfl⟩
  intro e he
  simp only [Renderer.Render, Renderer.FrameBegin, Renderer.FrameEnd, List.cons_append,
    List.nil_append, List.take_succ_cons, List.take_zero, List.mem_cons,
    List.mem_singleton, List.not_mem_nil, or_false] at he
  rcases he with h | h | h | h | h | h | h | h | h | h | h | h | h <;> subst h <;>
    exact ⟨rfl, rfl, by simp⟩

end sy

/-! ## Command pool manager: closed form of the reachable states -/

namespace sy
namespace vk

theorem ManagerState.ext_fields {a b : ManagerState} (h1 : a.cmdPools = b.cmdPools)
    (h2 : ∀ t q, a.localCmdPools t q = b.localCmdPools t q) (h3 : a.allocated = b.allocated) :
    a = b := by
  cases a; cases b
  simp only [ManagerState.mk.injEq]
  exact ⟨h1, funext fun t => funext fun q => h2 t q, h3⟩

theorem loopState_zero (N : Nat) (ps own : List (ThreadId × EQueueType)) (t : ThreadId)
    (q : EQueueType) (h : (t, q) ∉ ps) : loopState N ps own t q 0 = viewOf N ps own := by
  apply ManagerState.ext_fields
  · simp [loopState, viewOf]
  · intro t1 q1
    by_cases hc : t1 = t ∧ q1 = q
    · obtain ⟨rfl, rfl⟩ := hc
      simp [loopState, viewOf, stateOf, h]
    · simp [loopState, viewOf, hc]
  · simp [loopState, viewOf]

theorem loopBody_loopState (N : Nat) (ps own : List (ThreadId × EQueueType)) (t : ThreadId)
    (q : EQueueType) (k : Nat) (hk : k < N) :
    RequestCommandPool.loopBody N t q (loopState N ps own t q k) k =
      loopState N ps own t q (k + 1) := by
  apply ManagerState.ext_fields
  · apply List.ext_getElem?
    intro m
    simp only [RequestCommandPool.loopBody, loopState, List.getElem?_modify, List.getElem?_map]
    by_cases hm : m < N
    · rw [List.getElem?_range hm]
      simp only [Option.map_some', Option.map_eq_map, Option.some.injEq]
      by_cases hkm : k = m
      · subst hkm
        simp
      · have : (m < k + 1) = (m < k) := by
          apply propext; omega
        simp [hkm, this]
    · have : (List.range N)[m]? = none := by
        simp [List.getElem?_eq_none_iff]; omega
      simp [this]
  · intro t1 q1
    by_cases hc : t1 = t ∧ q1 = q
    · obtain ⟨rfl, rfl⟩ := hc
      simp only [RequestCommandPool.loopBody, loopState, and_self, if_true]
      have harr : ((if k = 0 then none
          else some ((List.range N).map
            (fun i => if i < k then some (⟨ps.length * N + i, q1⟩ : CommandPool) else none))).getD
            (List.replicate N none)) =
          (List.range N).map
            (fun i => if i < k then some (⟨ps.length * N + i, q1⟩ : CommandPool) else none) := by
        by_cases h0 : k = 0
        · subst h0
          simp only [if_true, Option.getD_none]
          apply List.ext_getElem?
          intro m
          by_cases hm : m < N
          · simp [List.getElem?_replicate, hm, List.getElem?_range hm]
          · have : (List.range N)[m]? = none := by
              simp [List.getElem?_eq_none_iff]; omega
            simp [List.getElem?_replicate, hm, this]
        · simp [h0]
      rw [harr]
      simp only [Nat.succ_ne_zero, if_false, Option.some.injEq]
      apply List.ext_getElem?
      intro m
      simp only [List.getElem?_set, List.getElem?_map, List.length_map, List.length_range]
      by_cases hm : m < N
      · rw [List.getElem?_range hm]
        by_cases hkm : k = m
        · subst hkm
          simp [hk]
        · have : (m < k + 1) = (m < k) := by
            apply propext; omega
          simp [hkm, this]
      · have : (List.range N)[m]? = none := by
          simp [List.getElem?_eq_none_iff]; omega
        have hkm : k ≠ m := by omega
        simp [this, hkm]
    · simp [RequestCommandPool.loopBody, loopState, hc]
  · simp [RequestCommandPool.loopBody, loopState]; omega

theorem foldl_loopBody (N : Nat) (ps own : List (ThreadId × EQueueType)) (t : ThreadId)
    (q : EQueueType) (h : (t, q) ∉ ps) (k : Nat) (hk : k ≤ N) :
    (List.range k).foldl (RequestCommandPool.loopBody N t q) (viewOf N ps own) =
      loopState N ps own t q k := by
  induction k with
  | zero => simp [loopState_zero N ps own t q h]
  | succ k ih =>
    rw [List.range_succ, List.foldl_append, ih (by omega)]
    simp only [List.foldl_cons, List.foldl_nil]
    exact loopBody_loopState N ps own t q k (by omega)

theorem poolOf_append_of_mem (N : Nat) (ps : List (ThreadId × EQueueType))
    (x p : ThreadId × EQueueType) (i : Nat) (hp : p ∈ ps) :
    poolOf N (ps ++ [x]) i p = poolOf N ps i p := by
  simp [poolOf, pairIndex, List.indexOf_append_of_mem hp]

theorem poolOf_append_self (N : Nat) (ps : List (ThreadId × EQueueType))
    (x : ThreadId × EQueueType) (i : Nat) (hx : x ∉ ps) :
    poolOf N (ps ++ [x]) i x = ⟨ps.length * N + i, x.2⟩ := by
  simp [poolOf, pairIndex, List.indexOf_append_of_not_mem hx]

theorem loopState_full (N : Nat) (hN : 0 < N) (ps own : List (ThreadId × EQueueType))
    (hown : ∀ p ∈ own, p ∈ ps) (t : ThreadId) (q : EQueueType) (h : (t, q) ∉ ps) :
    loopState N ps own t q N = viewOf N (ps ++ [(t, q)]) (own ++ [(t, q)]) := by
  apply ManagerState.ext_fields
  · simp only [loopState, viewOf]
    apply List.map_congr_left
    intro i hi
    rw [List.mem_range] at hi
    simp only [hi, if_true, List.map_append, List.map_cons, List.map_nil]
    rw [poolOf_append_self N ps (t, q) i h]
    congr 1
    apply List.map_congr_left
    intro p hp
    exact (poolOf_append_of_mem N ps (t, q) p i (hown p hp)).symm
  · intro t1 q1
    by_cases hc : t1 = t ∧ q1 = q
    · obtain ⟨rfl, rfl⟩ := hc
      have hN0 : N ≠ 0 := by omega
      simp only [loopState, viewOf, stateOf, and_self, if_true, hN0, if_false, List.mem_append,
        List.mem_singleton, or_true, Option.some.injEq]
      apply List.map_congr_left
      intro i hi
      rw [List.mem_range] at hi
      simp [hi, poolOf_append_self N ps (t1, q1) i h]
    · have hne : (t1, q1) ≠ (t, q) := by
        intro he
        apply hc
        simp only [Prod.mk.injEq] at he
        exact he
      simp only [loopState, viewOf, stateOf, hc, if_false, List.mem_append, List.mem_singleton, hne,
        or_false]
      by_cases hm : (t1, q1) ∈ ps
      · simp only [hm, if_true, Option.some.injEq]
        apply List.map_congr_left
        intro i _
        rw [poolOf_append_of_mem N ps (t, q) (t1, q1) i hm]
      · simp [hm]
  · simp [loopState, viewOf]; ring

theorem entry_stateOf (N : Nat) (ps : List (ThreadId × EQueueType)) (t : ThreadId)
    (q : EQueueType) (s : Nat) (hs : s < N) (h : (t, q) ∈ ps) :
    (stateOf N ps).entry t q s = some (poolOf N ps s (t, q)) := by
  simp [ManagerState.entry, stateOf, h, List.getElem?_range hs]

theorem entry_stateOf_of_not_mem (N : Nat) (ps : List (ThreadId × EQueueType)) (t : ThreadId)
    (q : EQueueType) (s : Nat) (h : (t, q) ∉ ps) :
    (stateOf N ps).entry t q s = none := by
  simp [ManagerState.entry, stateOf, h]

/-- A request served in the closed-form state of a manager. -/
theorem RequestCommandPool_viewOf (N : Nat) (hN : 0 < N)
    (ps own : List (ThreadId × EQueueType)) (hown : ∀ p ∈ own, p ∈ ps)
    (t : ThreadId) (q : EQueueType) (s : Nat) :
    RequestCommandPool N (viewOf N ps own) t q s =
      ((viewOf N (addPair ps ⟨t, q, s⟩) (addOwn ps own ⟨t, q, s⟩)).entry t q s,
        viewOf N (addPair ps ⟨t, q, s⟩) (addOwn ps own ⟨t, q, s⟩)) := by
  by_cases h : (t, q) ∈ ps
  · have h1 : ((viewOf N ps own).localCmdPools t q).isSome = true := by
      simp [viewOf, stateOf, h]
    simp [RequestCommandPool, h1, addPair, addOwn, PoolRequest.pair, h]
  · have h1 : ((viewOf N ps own).localCmdPools t q).isSome = false := by
      simp [viewOf, stateOf, h]
    simp only [RequestCommandPool, h1, addPair, addOwn, PoolRequest.pair, h, if_false,
      Bool.false_eq_true]
    rw [foldl_loopBody N ps own t q h N (le_refl N), loopState_full N hN ps own hown t q h]

theorem addPair_nodup (ps : List (ThreadId × EQueueType)) (c : PoolRequest)
    (h : ps.Nodup) : (addPair ps c).Nodup := by
  unfold addPair
  split
  · exact h
  · rename_i hc
    rw [List.nodup_append]
    refine ⟨h, List.nodup_singleton _, ?_⟩
    intro x hx hx1
    simp only [List.mem_singleton] at hx1
    subst hx1
    exact hc hx

theorem mem_addPair (ps : List (ThreadId × EQueueType)) (c : PoolRequest)
    (x : ThreadId × EQueueType) : x ∈ addPair ps c ↔ x ∈ ps ∨ x = c.pair := by
  unfold addPair
  split
  · rename_i hc
    constructor
    · exact Or.inl
    · rintro (h | h)
      · exact h
      · subst h; exact hc
  · simp

theorem foldl_addPair_nodup (calls : List PoolRequest) (ps : List (ThreadId × EQueueType))
    (h : ps.Nodup) : (calls.foldl addPair ps).Nodup := by
  induction calls generalizing ps with
  | nil => exact h
  | cons c cs ih => exact ih _ (addPair_nodup ps c h)

theorem mem_foldl_addPair (calls : List PoolRequest) (ps : List (ThreadId × EQueueType))
    (x : ThreadId × EQueueType) :
    x ∈ calls.foldl addPair ps ↔ x ∈ ps ∨ ∃ c ∈ calls, c.pair = x := by
  induction calls generalizing ps with
  | nil => simp
  | cons c cs ih =>
    rw [List.foldl_cons, ih, mem_addPair]
    constructor
    · rintro ((h | h) | ⟨d, hd, hx⟩)
      · exact Or.inl h
      · exact Or.inr ⟨c, List.mem_cons_self _ _, h.symm⟩
      · exact Or.inr ⟨d, List.mem_cons_of_mem _ hd, hx⟩
    · rintro (h | ⟨d, hd, hx⟩)
      · exact Or.inl (Or.inl h)
      · rcases List.mem_cons.1 hd with rfl | hd
        · exact Or.inl (Or.inr hx.symm)
        · exact Or.inr ⟨d, hd, hx⟩

theorem foldl_addPair_prefix (calls : List PoolRequest) (ps : List (ThreadId × EQueueType)) :
    ∃ extra, calls.foldl addPair ps = ps ++ extra := by
  induction calls generalizing ps with
  | nil => exact ⟨[], by simp⟩
  | cons c cs ih =>
    obtain ⟨extra, he⟩ := ih (addPair ps c)
    rw [List.foldl_cons, he]
    unfold addPair
    split
    · exact ⟨extra, rfl⟩
    · exact ⟨c.pair :: extra, by simp⟩

theorem distinctPairs_nodup (calls : List PoolRequest) : (distinctPairs calls).Nodup :=
  foldl_addPair_nodup calls [] List.nodup_nil

theorem mem_distinctPairs (calls : List PoolRequest) (x : ThreadId × EQueueType) :
    x ∈ distinctPairs calls ↔ ∃ c ∈ calls, c.pair = x := by
  unfold distinctPairs
  rw [mem_foldl_addPair]
  simp

theorem poolOf_inj (N : Nat) (ps : List (ThreadId × EQueueType)) (i j : Nat)
    (x y : ThreadId × EQueueType) (hi : i < N) (hj : j < N) (hx : x ∈ ps) (hy : y ∈ ps)
    (h : poolOf N ps i x = poolOf N ps j y) : x = y ∧ i = j := by
  simp only [poolOf, CommandPool.mk.injEq] at h
  obtain ⟨h1, -⟩ := h
  have hd : (pairIndex ps x * N + i) / N = (pairIndex ps y * N + j) / N := by rw [h1]
  have hm : (pairIndex ps x * N + i) % N = (pairIndex ps y * N + j) % N := by rw [h1]
  have hN : 0 < N := by omega
  rw [Nat.mul_comm (pairIndex ps x), Nat.mul_comm (pairIndex ps y)] at hd hm
  rw [Nat.mul_add_div hN, Nat.mul_add_div hN, Nat.div_eq_of_lt hi, Nat.div_eq_of_lt hj] at hd
  rw [Nat.mul_add_mod, Nat.mul_add_mod, Nat.mod_eq_of_lt hi, Nat.mod_eq_of_lt hj] at hm
  simp only [Nat.add_zero] at hd
  exact ⟨(List.indexOf_inj hx hy).1 hd, hm⟩

theorem poolOf_append_left (N : Nat) (ps extra : List (ThreadId × EQueueType))
    (p : ThreadId × EQueueType) (i : Nat) (hp : p ∈ ps) :
    poolOf N (ps ++ extra) i p = poolOf N ps i p := by
  simp [poolOf, pairIndex, List.indexOf_append_of_mem hp]

theorem addPair_prefix (ps : List (ThreadId × EQueueType)) (c : PoolRequest) :
    ∃ extra, addPair ps c = ps ++ extra := by
  unfold addPair
  split
  · exact ⟨[], by simp⟩
  · exact ⟨[c.pair], rfl⟩

theorem mem_addPair_self (ps : List (ThreadId × EQueueType)) (c : PoolRequest) :
    c.pair ∈ addPair ps c :=
  (mem_addPair ps c c.pair).2 (Or.inr rfl)

/-! ## Command pool manager: several managers in one process -/

theorem cmdPools_viewOf (N : Nat) (ps own : List (ThreadId × EQueueType)) (s : Nat)
    (hs : s < N) : (viewOf N ps own).cmdPools.getD s [] = own.map (poolOf N ps s) := by
  simp [viewOf, List.getD_eq_getElem?_getD, List.getElem?_range hs]

theorem localCmdPools_viewOf_eq_none (N : Nat) (ps own : List (ThreadId × EQueueType))
    (t : ThreadId) (q : EQueueType) :
    (viewOf N ps own).localCmdPools t q = none ↔ (t, q) ∉ ps := by
  by_cases h : (t, q) ∈ ps <;> simp [viewOf, stateOf, h]

theorem create_process_viewOf (N : Nat) (ps own : List (ThreadId × EQueueType)) :
    ManagerState.create N (viewOf N ps own).process = viewOf N ps [] := by
  apply ManagerState.ext_fields
  · simp only [ManagerState.create, viewOf, List.map_nil]
    apply List.ext_getElem?
    intro m
    by_cases hm : m < N
    · simp [List.getElem?_replicate, hm, List.getElem?_range hm]
    · have : (List.range N)[m]? = none := by
        simp [List.getElem?_eq_none_iff]; omega
      simp [List.getElem?_replicate, hm, this]
  · intro t q
    rfl
  · rfl

theorem addOwn_subset (ps own : List (ThreadId × EQueueType)) (c : PoolRequest)
    (h : ∀ p ∈ own, p ∈ ps) : ∀ p ∈ addOwn ps own c, p ∈ addPair ps c := by
  intro p hp
  unfold addOwn at hp
  unfold addPair
  split
  · rename_i hc
    rw [if_pos hc] at hp
    exact h p hp
  · rename_i hc
    rw [if_neg hc] at hp
    rcases List.mem_append.1 hp with hp | hp
    · exact List.mem_append_left _ (h p hp)
    · exact List.mem_append_right _ hp

theorem requestAll_viewOf (N : Nat) (hN : 0 < N) (calls : List PoolRequest)
    (ps own : List (ThreadId × EQueueType)) (hown : ∀ p ∈ own, p ∈ ps) :
    requestAll N (viewOf N ps own) calls =
      viewOf N (calls.foldl addPair ps) (ownAfter ps own calls) := by
  induction calls generalizing ps own with
  | nil => rfl
  | cons c cs ih =>
    simp only [requestAll, List.foldl_cons, ownAfter]
    rw [RequestCommandPool_viewOf N hN ps own hown]
    exact ih _ _ (addOwn_subset ps own c hown)

/-- One call adds the same new pair to the table pairs and to the pairs of
the manager, namely the pair of the call unless the tables had it. -/
theorem addPair_addOwn_filter (ps own A : List (ThreadId × EQueueType)) (c : PoolRequest) :
    addPair (ps ++ A.filter (fun x => decide (x ∉ ps))) c =
        ps ++ (addPair A c).filter (fun x => decide (x ∉ ps)) ∧
    addOwn (ps ++ A.filter (fun x => decide (x ∉ ps)))
        (own ++ A.filter (fun x => decide (x ∉ ps))) c =
      own ++ (addPair A c).filter (fun x => decide (x ∉ ps)) := by
  by_cases h1 : c.pair ∈ ps
  · have hm : c.pair ∈ ps ++ A.filter (fun x => decide (x ∉ ps)) :=
      List.mem_append_left _ h1
    have hf : (addPair A c).filter (fun x => decide (x ∉ ps)) =
        A.filter (fun x => decide (x ∉ ps)) := by
      unfold addPair
      split
      · rfl
      · simp [List.filter_append, h1]
    rw [hf]
    simp only [addPair, addOwn, hm, if_true]
    exact ⟨trivial, trivial⟩
  · by_cases h2 : c.pair ∈ A
    · have hm : c.pair ∈ ps ++ A.filter (fun x => decide (x ∉ ps)) := by
        apply List.mem_append_right
        simp [List.mem_filter, h1, h2]
      simp only [addPair, addOwn, hm, h2, if_true]
      exact ⟨trivial, trivial⟩
    · have hm : c.pair ∉ ps ++ A.filter (fun x => decide (x ∉ ps)) := by
        simp [List.mem_filter, h1, h2]
      simp only [addPair, addOwn, hm, h2, if_false, List.filter_append, List.append_assoc]
      simp [h1]

theorem ownAfter_filter (ps own : List (ThreadId × EQueueType)) (calls : List PoolRequest)
    (A : List (ThreadId × EQueueType)) :
    ownAfter (ps ++ A.filter (fun x => decide (x ∉ ps)))
        (own ++ A.filter (fun x => decide (x ∉ ps))) calls =
      own ++ (calls.foldl addPair A).filter (fun x => decide (x ∉ ps)) := by
  induction calls generalizing A with
  | nil => rfl
  | cons c cs ih =>
    simp only [ownAfter, List.foldl_cons]
    rw [(addPair_addOwn_filter ps own A c).1, (addPair_addOwn_filter ps own A c).2]
    exact ih _

/-- The pairs a fresh manager registers are the distinct pairs of its calls
that the tables did not hold when it was constructed. -/
theorem ownAfter_nil (ps : List (ThreadId × EQueueType)) (calls : List PoolRequest) :
    ownAfter ps [] calls = (distinctPairs calls).filter (fun x => decide (x ∉ ps)) := by
  have h := ownAfter_filter ps [] calls []
  simpa [distinctPairs] using h

theorem processAfter_foldl (N : Nat) (hN : 0 < N) (served : List (List PoolRequest))
    (ps : List (ThreadId × EQueueType)) (hps : ps.Nodup) :
    ∃ ps1, ps1.Nodup ∧
      served.foldl
        (fun p calls => (requestAll N (ManagerState.create N p) calls).process)
        (stateOf N ps).process = (stateOf N ps1).process := by
  induction served generalizing ps with
  | nil => exact ⟨ps, hps, rfl⟩
  | cons calls rest ih =>
    simp only [List.foldl_cons]
    have h1 : ManagerState.create N (stateOf N ps).process = viewOf N ps [] :=
      create_process_viewOf N ps ps
    rw [h1, requestAll_viewOf N hN calls ps [] (by simp)]
    exact ih _ (foldl_addPair_nodup calls ps hps)

/-- The tables of a process that has had managers are those of the closed
form for some list of distinct pairs. -/
theorem processAfter_closed (N : Nat) (hN : 0 < N) (served : List (List PoolRequest)) :
    ∃ ps, ps.Nodup ∧ processAfter N served = (stateOf N ps).process := by
  have h0 : ProcessState.start = (stateOf N []).process := by
    simp [ProcessState.start, ManagerState.process, stateOf]
  unfold processAfter
  rw [h0]
  exact processAfter_foldl N hN served [] List.nodup_nil

/-- The state of a manager constructed after earlier managers were served,
once it has served `calls`, in closed form. -/
theorem requestAll_create_after (N : Nat) (hN : 0 < N) (served : List (List PoolRequest)) :
    ∃ ps0 : List (ThreadId × EQueueType), ps0.Nodup ∧
      ManagerState.create N (processAfter N served) = viewOf N ps0 [] ∧
      ∀ calls : List PoolRequest,
        requestAll N (ManagerState.create N (processAfter N served)) calls =
          viewOf N (calls.foldl addPair ps0)
            ((distinctPairs calls).filter (fun x => decide (x ∉ ps0))) := by
  obtain ⟨ps0, hnd, hp⟩ := processAfter_closed N hN served
  have h1 : ManagerState.create N (processAfter N served) = viewOf N ps0 [] := by
    rw [hp]
    exact create_process_viewOf N ps0 ps0
  refine ⟨ps0, hnd, h1, ?_⟩
  intro calls
  rw [h1, requestAll_viewOf N hN calls ps0 [] (by simp), ownAfter_nil]

theorem mem_filter_new_pairs (ps0 : List (ThreadId × EQueueType)) (calls : List PoolRequest)
    (x : ThreadId × EQueueType) :
    x ∈ (distinctPairs calls).filter (fun y => decide (y ∉ ps0)) ↔
      (∃ c ∈ calls, c.pair = x) ∧ x ∉ ps0 := by
  simp [List.mem_filter, mem_distinctPairs]

theorem filter_new_pairs_subset (ps0 : List (ThreadId × EQueueType))
    (calls : List PoolRequest) :
    ∀ x ∈ (distinctPairs calls).filter (fun y => decide (y ∉ ps0)),
      x ∈ calls.foldl addPair ps0 := by
  intro x hx
  rw [mem_filter_new_pairs] at hx
  exact (mem_foldl_addPair calls ps0 x).2 (Or.inr hx.1)

theorem map_poolOf_nodup (N : Nat) (ps own : List (ThreadId × EQueueType))
    (hown : ∀ p ∈ own, p ∈ ps) (h : own.Nodup) (s : Nat) (hs : s < N) :
    (own.map (poolOf N ps s)).Nodup :=
  List.Nodup.map_on
    (fun x hx y hy hxy => (poolOf_inj N ps s s x y hs hs (hown x hx) (hown y hy) hxy).1) h

theorem ownAfter_subset (calls : List PoolRequest) (ps own : List (ThreadId × EQueueType))
    (hown : ∀ p ∈ own, p ∈ ps) : ∀ p ∈ ownAfter ps own calls, p ∈ calls.foldl addPair ps := by
  induction calls generalizing ps own with
  | nil => exact hown
  | cons c cs ih => exact ih _ _ (addOwn_subset ps own c hown)

theorem cmdPools_viewOf_flatten_nodup (N : Nat) (ps own : List (ThreadId × EQueueType))
    (hown : ∀ p ∈ own, p ∈ ps) (h : own.Nodup) : (viewOf N ps own).cmdPools.flatten.Nodup := by
  rw [List.nodup_flatten]
  constructor
  · intro l hl
    simp only [viewOf, List.mem_map, List.mem_range] at hl
    obtain ⟨i, hi, rfl⟩ := hl
    exact map_poolOf_nodup N ps own hown h i hi
  · simp only [viewOf, List.pairwise_map]
    refine List.Pairwise.imp_of_mem ?_ (List.nodup_range N)
    intro i j hi hj hij
    rw [List.mem_range] at hi hj
    intro p hp1 hp2
    simp only [List.mem_map] at hp1 hp2
    obtain ⟨x, hx, rfl⟩ := hp1
    obtain ⟨y, hy, hxy⟩ := hp2
    exact hij (poolOf_inj N ps j i y x hj hi (hown y hy) (hown x hx) hxy).2.symm

/-- C6: a manager is constructed in a process that has had any number of
earlier managers. In every state it reaches by `RequestCommandPool` calls, a
request and any later request return the same pool only if thread, queue type
and slot index all agree, so two distinct threads never receive the same
pool; no pool is the entry of two different (thread, queue type, slot)
places of the tables, and no pool occurs twice in the registry. With no
earlier manager these are the states reached from the first manager of the
process. -/
theorem C6_pool_determined_injectively (N : Nat) (hN : 0 < N)
    (served : List (List PoolRequest)) (calls more : List PoolRequest)
    (t t1 : ThreadId) (q q1 : EQueueType) (s s1 : Nat) (hs : s < N) (hs1 : s1 < N) :
    let st := requestAll N (ManagerState.create N (processAfter N served)) calls
    let r := RequestCommandPool N st t q s
    let r1 := RequestCommandPool N (requestAll N r.2 more) t1 q1 s1
    r.1.isSome = true ∧ r1.1.isSome = true ∧
    (r.1 = r1.1 → t = t1 ∧ q = q1 ∧ s = s1) ∧
    (t ≠ t1 → r.1 ≠ r1.1) ∧
    (∀ (x y : ThreadId × EQueueType) (i j : Nat) (p : CommandPool), i < N → j < N →
      st.entry x.1 x.2 i = some p → st.entry y.1 y.2 j = some p → x = y ∧ i = j) ∧
    st.cmdPools.flatten.Nodup ∧
    processAfter N [] = ProcessState.start := by
  intro st r r1
  obtain ⟨ps0, -, -, hall⟩ := requestAll_create_after N hN served
  have hst : st = viewOf N (calls.foldl addPair ps0)
      ((distinctPairs calls).filter (fun x => decide (x ∉ ps0))) := hall calls
  have hown := filter_new_pairs_subset ps0 calls
  have hownnd : ((distinctPairs calls).filter (fun x => decide (x ∉ ps0))).Nodup :=
    (distinctPairs_nodup calls).filter _
  have hown1 := addOwn_subset _ _ ⟨t, q, s⟩ hown
  have hin : (t, q) ∈ addPair (calls.foldl addPair ps0) ⟨t, q, s⟩ :=
    mem_addPair_self _ ⟨t, q, s⟩
  have hr : r = ((viewOf N (addPair (calls.foldl addPair ps0) ⟨t, q, s⟩)
        (addOwn (calls.foldl addPair ps0)
          ((distinctPairs calls).filter (fun x => decide (x ∉ ps0))) ⟨t, q, s⟩)).entry t q s,
      viewOf N (addPair (calls.foldl addPair ps0) ⟨t, q, s⟩)
        (addOwn (calls.foldl addPair ps0)
          ((distinctPairs calls).filter (fun x => decide (x ∉ ps0))) ⟨t, q, s⟩)) := by
    show RequestCommandPool N st t q s = _
    rw [hst, RequestCommandPool_viewOf N hN _ _ hown]
  have hr1 : r.1 = some (poolOf N (addPair (calls.foldl addPair ps0) ⟨t, q, s⟩) s (t, q)) := by
    rw [hr]
    exact entry_stateOf N _ t q s hs hin
  obtain ⟨e1, he1⟩ := foldl_addPair_prefix more (addPair (calls.foldl addPair ps0) ⟨t, q, s⟩)
  obtain ⟨e2, he2⟩ := addPair_prefix
    (List.foldl addPair (addPair (calls.foldl addPair ps0) ⟨t, q, s⟩) more) ⟨t1, q1, s1⟩
  have hin1 : (t1, q1) ∈ addPair (calls.foldl addPair ps0) ⟨t, q, s⟩ ++ (e1 ++ e2) := by
    rw [← List.append_assoc, ← he1, ← he2]
    exact mem_addPair_self _ ⟨t1, q1, s1⟩
  have hr1' : r1.1 = some (poolOf N (addPair (calls.foldl addPair ps0) ⟨t, q, s⟩ ++ (e1 ++ e2))
      s1 (t1, q1)) := by
    show (RequestCommandPool N (requestAll N r.2 more) t1 q1 s1).1 = _
    rw [hr]
    show (RequestCommandPool N (requestAll N (viewOf N _ _) more) t1 q1 s1).1 = _
    rw [requestAll_viewOf N hN more _ _ hown1,
      RequestCommandPool_viewOf N hN _ _ (ownAfter_subset more _ _ hown1)]
    show (stateOf N _).entry t1 q1 s1 = _
    rw [entry_stateOf N _ t1 q1 s1 hs1 (mem_addPair_self _ ⟨t1, q1, s1⟩), he2, he1,
      List.append_assoc]
  have hinj : r.1 = r1.1 → t = t1 ∧ q = q1 ∧ s = s1 := by
    intro h
    rw [hr1, hr1', Option.some.injEq,
      ← poolOf_append_left N _ (e1 ++ e2) (t, q) s hin] at h
    obtain ⟨hxy, hss⟩ := poolOf_inj N _ s s1 (t, q) (t1, q1) hs hs1
      (List.mem_append_left _ hin) hin1 h
    simp only [Prod.mk.injEq] at hxy
    exact ⟨hxy.1, hxy.2, hss⟩
  refine ⟨by rw [hr1]; rfl, by rw [hr1']; rfl, hinj, fun hne h => hne (hinj h).1, ?_, ?_,
    rfl⟩
  · intro x y i j p hi hj hx hy
    have hx1 : (stateOf N (calls.foldl addPair ps0)).entry x.1 x.2 i = some p := by
      rw [hst] at hx; exact hx
    have hy1 : (stateOf N (calls.foldl addPair ps0)).entry y.1 y.2 j = some p := by
      rw [hst] at hy; exact hy
    have hxm : x ∈ calls.foldl addPair ps0 := by
      by_contra hxn
      rw [entry_stateOf_of_not_mem N _ x.1 x.2 i hxn] at hx1
      exact Option.noConfusion hx1
    have hym : y ∈ calls.foldl addPair ps0 := by
      by_contra hyn
      rw [entry_stateOf_of_not_mem N _ y.1 y.2 j hyn] at hy1
      exact Option.noConfusion hy1
    rw [entry_stateOf N _ x.1 x.2 i hi hxm] at hx1
    rw [entry_stateOf N _ y.1 y.2 j hj hym, ← hx1] at hy1
    exact poolOf_inj N _ i j x y hi hj hxm hym (Option.some.inj hy1).symm
  · rw [hst]
    exact cmdPools_viewOf_flatten_nodup N _ _ hown hownnd

/-- Witness of C6 with two slots: threads 0 and 1 ask the first manager of a
process for the graphics pool of slot 0 and receive different pools. -/
theorem C6_pool_determined_injectively_witness :
    0 < 2 ∧ 0 < 2 ∧ (0 : ThreadId) ≠ 1 ∧
    (RequestCommandPool 2 (requestAll 2 (ManagerState.create 2 (processAfter 2 [])) []) 0
      EQueueType.Graphics 0).1 ≠
    (RequestCommandPool 2
      (requestAll 2
        (RequestCommandPool 2 (requestAll 2 (ManagerState.create 2 (processAfter 2 [])) []) 0
          EQueueType.Graphics 0).2 [])
      1 EQueueType.Graphics 0).1 :=
  ⟨by decide, by decide, by decide,
   (C6_pool_determined_injectively 2 (by decide) [] [] [] 0 1 EQueueType.Graphics
      EQueueType.Graphics 0 0 (by decide) (by decide)).2.2.2.1 (by decide)⟩

/-- C7: a manager is constructed in a process that has had any number of
earlier managers. In every state it reaches by `RequestCommandPool` calls,
`BeginFrame` at slot index `s < N` calls `CommandPool::BeginFrame` on the
pools of `cmdPools[s]`, on each exactly once, whichever thread requested it,
and on no pool of another slot list; the state, the registry lists included,
is unchanged. The pool of every call whose pair had no table entry when the
manager was constructed is among those visited; with no earlier manager that
is the pool of every call. -/
theorem C7_BeginFrame_current_slot_only (N : Nat) (hN : 0 < N)
    (served : List (List PoolRequest)) (calls : List PoolRequest) (s : Nat) (hs : s < N) :
    let st0 := ManagerState.create N (processAfter N served)
    let st := requestAll N st0 calls
    let r := BeginFrame st s
    r.1 = st.cmdPools.getD s [] ∧
    (∀ p ∈ st.cmdPools.getD s [], r.1.count p = 1) ∧
    (∀ c ∈ calls, st0.localCmdPools c.thread c.queueType = none →
      ∃ p, st.entry c.thread c.queueType s = some p ∧ r.1.count p = 1) ∧
    (served = [] →
      ∀ c ∈ calls, ∃ p, st.entry c.thread c.queueType s = some p ∧ r.1.count p = 1) ∧
    (∀ i, i < N → i ≠ s → ∀ p ∈ st.cmdPools.getD i [], r.1.count p = 0) ∧
    r.2.cmdPools = st.cmdPools ∧ r.2.allocated = st.allocated ∧
    (∀ t q, r.2.localCmdPools t q = st.localCmdPools t q) := by
  intro st0 st r
  obtain ⟨ps0, -, h0, hall⟩ := requestAll_create_after N hN served
  have hst0 : st0 = viewOf N ps0 [] := h0
  have hst : st = viewOf N (calls.foldl addPair ps0)
      ((distinctPairs calls).filter (fun x => decide (x ∉ ps0))) := hall calls
  have hown := filter_new_pairs_subset ps0 calls
  have hownnd : ((distinctPairs calls).filter (fun x => decide (x ∉ ps0))).Nodup :=
    (distinctPairs_nodup calls).filter _
  have hr : r.1 = st.cmdPools.getD s [] := by
    show List.map (fun cmdPool => cmdPool) (st.cmdPools.getD s []) = _
    simp
  have hnd : (st.cmdPools.getD s []).Nodup := by
    rw [hst, cmdPools_viewOf N _ _ s hs]
    exact map_poolOf_nodup N _ _ hown hownnd s hs
  have hvisit : ∀ c ∈ calls, st0.localCmdPools c.thread c.queueType = none →
      ∃ p, st.entry c.thread c.queueType s = some p ∧ r.1.count p = 1 := by
    intro c hc hfree
    have hnot : (c.thread, c.queueType) ∉ ps0 := by
      rw [hst0] at hfree
      exact (localCmdPools_viewOf_eq_none N ps0 [] _ _).1 hfree
    have hin : (c.thread, c.queueType) ∈
        (distinctPairs calls).filter (fun x => decide (x ∉ ps0)) :=
      (mem_filter_new_pairs ps0 calls _).2 ⟨⟨c, hc, rfl⟩, hnot⟩
    refine ⟨poolOf N (calls.foldl addPair ps0) s (c.thread, c.queueType), ?_, ?_⟩
    · rw [hst]; exact entry_stateOf N _ _ _ s hs (hown _ hin)
    · rw [hr]
      apply List.count_eq_one_of_mem hnd
      rw [hst, cmdPools_viewOf N _ _ s hs]
      exact List.mem_map_of_mem _ hin
  refine ⟨hr, ?_, hvisit, ?_, ?_, rfl, rfl, fun _ _ => rfl⟩
  · intro p hp
    rw [hr]
    exact List.count_eq_one_of_mem hnd hp
  · intro hserved c hc
    apply hvisit c hc
    subst hserved
    rfl
  · intro i hi his p hp
    rw [hr]
    apply List.count_eq_zero_of_not_mem
    intro hps
    rw [hst, cmdPools_viewOf N _ _ i hi] at hp
    rw [hst, cmdPools_viewOf N _ _ s hs] at hps
    simp only [List.mem_map] at hp hps
    obtain ⟨x, hx, rfl⟩ := hp
    obtain ⟨y, hy, hxy⟩ := hps
    exact his (poolOf_inj N _ s i y x hs hi (hown y hy) (hown x hx) hxy).2.symm

/-- Witness of C7 with two slots: after two threads asked the first manager
of a process for graphics pools, `BeginFrame` at slot 1 visits the two pools
of slot 1. -/
theorem C7_BeginFrame_current_slot_only_witness :
    0 < 2 ∧ 1 < 2 ∧
    (BeginFrame
      (requestAll 2 (ManagerState.create 2 (processAfter 2 []))
        [⟨0, EQueueType.Graphics, 0⟩, ⟨1, EQueueType.Graphics, 0⟩]) 1).1 =
      (requestAll 2 (ManagerState.create 2 (processAfter 2 []))
        [⟨0, EQueueType.Graphics, 0⟩, ⟨1, EQueueType.Graphics, 0⟩]).cmdPools.getD 1 [] :=
  ⟨by decide, by decide,
   (C7_BeginFrame_current_slot_only 2 (by decide) []
      [⟨0, EQueueType.Graphics, 0⟩, ⟨1, EQueueType.Graphics, 0⟩] 1 (by decide)).1⟩

end vk
end sy

/-! ## Frame loop: command buffers, fences and layouts -/

namespace sy

/-- C11: in every `Render` call there is one submitted batch; each command
buffer of it occurs in it once, and `End()` is called on it exactly once,
after the request that returned it and before the submission; no pipeline
barrier, `BeginRendering` or `EndRendering` is issued to it after its
`End()`. -/
theorem C11_batch_buffers_ended_once_before_submit (r : Renderer) (env : RenderEnv) :
    ∃ batch, submittedBatches (r.Render env).1 = [batch] ∧ batch.length = 2 ∧
      ∀ cb ∈ batch,
        batch.count cb = 1 ∧
        ((r.Render env).1.filter (Effect.ends cb)).length = 1 ∧
        ∃ pre post, (r.Render env).1 = pre ++ Effect.End cb :: post ∧
          (pre.filter (Effect.requests cb)).length = 1 ∧
          (post.filter (Effect.requests cb)).length = 0 ∧
          (pre.filter Effect.isSubmitTo).length = 0 ∧
          (post.filter Effect.isSubmitTo).length = 1 ∧
          (post.filter (Effect.recordsInto cb)).length = 0 := by
  have hne : CommandPool.RequestCommandBuffer env.graphicsCmdPool "Render Cmd Buffer"
        r.GetCurrentFrame.renderFence ≠
      CommandPool.RequestCommandBuffer env.computeCmdPool "Compute Buffer"
        r.GetCurrentFrame.renderFence := by
    simp [CommandPool.RequestCommandBuffer]
  refine ⟨_, rfl, rfl, ?_⟩
  intro cb hcb
  simp only [List.mem_cons, List.mem_singleton, List.nil_append, List.cons_append,
    List.not_mem_nil, or_false] at hcb
  rcases hcb with h | h
  · subst h
    refine ⟨?_, ?_, (r.Render env).1.take 12, (r.Render env).1.drop 13, rfl, ?_, ?_, ?_, ?_, ?_⟩
    all_goals
      simp [Renderer.Render, Renderer.FrameBegin, Renderer.FrameEnd, Effect.ends,
        Effect.requests, Effect.isSubmitTo, Effect.recordsInto, List.filter, hne, hne.symm,
        List.count_cons]
  · subst h
    refine ⟨?_, ?_, (r.Render env).1.take 7, (r.Render env).1.drop 8, rfl, ?_, ?_, ?_, ?_, ?_⟩
    all_goals
      simp [Renderer.Render, Renderer.FrameBegin, Renderer.FrameEnd, Effect.ends,
        Effect.requests, Effect.isSubmitTo, Effect.recordsInto, List.filter, hne, hne.symm,
        List.count_cons]

/-- C12: in every `Render` call both command buffer requests are given the
current slot's render fence as dependency fence, the buffers of the submitted
batch carry that fence, and it is the fence that `FrameBegin` waited on and
reset and that `SubmitTo` is given to signal. -/
theorem C12_dependency_fence_is_slot_fence (r : Renderer) (env : RenderEnv) :
    let fence := r.GetCurrentFrame.renderFence
    requestedFences (r.Render env).1 = [fence, fence] ∧
    (∀ cb ∈ requestedBuffers (r.Render env).1, cb.dependencyFence = fence) ∧
    submittedBatches (r.Render env).1 = [requestedBuffers (r.Render env).1] ∧
    (∀ batch ∈ submittedBatches (r.Render env).1, ∀ cb ∈ batch, cb.dependencyFence = fence) ∧
    r.FrameBegin.1.filter Effect.isWait = [Effect.Wait fence] ∧
    r.FrameBegin.1.filter Effect.isReset = [Effect.Reset fence] ∧
    submittedFences (r.Render env).1 = [fence] := by
  intro fence
  have hb : ∀ cb ∈ requestedBuffers (r.Render env).1, cb.dependencyFence = fence := by
    intro cb hcb
    have hl : requestedBuffers (r.Render env).1 =
        [env.graphicsCmdPool.RequestCommandBuffer "Render Cmd Buffer" fence,
         env.computeCmdPool.RequestCommandBuffer "Compute Buffer" fence] := rfl
    rw [hl] at hcb
    simp only [List.mem_cons, List.mem_singleton, List.not_mem_nil, or_false] at hcb
    rcases hcb with h | h <;> subst h <;> rfl
  refine ⟨rfl, hb, rfl, ?_, rfl, rfl, rfl⟩
  intro batch hbatch cb hcb
  have hs : submittedBatches (r.Render env).1 = [requestedBuffers (r.Render env).1] := rfl
  rw [hs, List.mem_singleton] at hbatch
  subst hbatch
  exact hb cb hcb

/-- C15, as amended: in every `Render` call two barriers are recorded; the
new layout of the first is the old layout of the second
(`VK_IMAGE_LAYOUT_COLOR_ATTACHMENT_OPTIMAL`), and the source access mask of
the second is the destination access mask of the first; the layout declared
for the colour attachment is `VK_IMAGE_LAYOUT_ATTACHMENT_OPTIMAL`. -/
theorem C15_barrier_layouts_chain (r : Renderer) (env : RenderEnv) :
    ∃ first second,
      recordedBarriers (r.Render env).1 = [first, second] ∧
      first.newLayout = VkImageLayout.VK_IMAGE_LAYOUT_COLOR_ATTACHMENT_OPTIMAL ∧
      first.newLayout = second.oldLayout ∧
      second.srcAccessMask = first.dstAccessMask ∧
      first.image = second.image ∧
      declaredAttachmentLayouts (r.Render env).1 =
        [VkImageLayout.VK_IMAGE_LAYOUT_ATTACHMENT_OPTIMAL] :=
  ⟨_, _, rfl, rfl, rfl, rfl, rfl, rfl⟩

/-- C15, as stated, fails: the first barrier moves the swapchain image to
`VK_IMAGE_LAYOUT_COLOR_ATTACHMENT_OPTIMAL`, while the rendering info declares
`VK_IMAGE_LAYOUT_ATTACHMENT_OPTIMAL` for the colour attachment, which is
another layout value; so the declared layout equals neither the new layout of
the first barrier nor the old layout of the second. -/
theorem C15_declared_layout_differs_from_barrier_layout :
    (recordedBarriers ((Renderer.create 2).Render sampleEnv).1).map
        (fun b => (b.oldLayout, b.newLayout)) =
      [(VkImageLayout.VK_IMAGE_LAYOUT_UNDEFINED,
          VkImageLayout.VK_IMAGE_LAYOUT_COLOR_ATTACHMENT_OPTIMAL),
       (VkImageLayout.VK_IMAGE_LAYOUT_COLOR_ATTACHMENT_OPTIMAL,
          VkImageLayout.VK_IMAGE_LAYOUT_PRESENT_SRC_KHR)] ∧
    declaredAttachmentLayouts ((Renderer.create 2).Render sampleEnv).1 =
      [VkImageLayout.VK_IMAGE_LAYOUT_ATTACHMENT_OPTIMAL] ∧
    ¬ (∀ b ∈ (recordedBarriers ((Renderer.create 2).Render sampleEnv).1).head?,
        ∀ l ∈ declaredAttachmentLayouts ((Renderer.create 2).Render sampleEnv).1,
          b.newLayout = l) := by
  decide

end sy

/-! ## Vulkan instance, shader module and default resources -/

namespace sy

/-- C13 fails on the code: `InitCommandPools` stores the compute queue of the
device in `transferQueue`, so `GetQueue(EQueueType::Transfer)` returns the
compute queue; the other three queues and all four family indices are the
ones the device reports. -/
theorem C13_transfer_queue_is_compute_queue :
    (∀ (inst inst1 : VulkanInstance) (thread : Nat) (vkbDevice : vkb.Device),
      inst.InitCommandPools thread vkbDevice = some inst1 →
        some (inst1.GetQueue EQueueType.Transfer) = vkbDevice.get_queue vkb.QueueType.compute ∧
        some (inst1.GetQueue EQueueType.Graphics) = vkbDevice.get_queue vkb.QueueType.graphics ∧
        some (inst1.GetQueue EQueueType.Compute) = vkbDevice.get_queue vkb.QueueType.compute ∧
        some (inst1.GetQueue EQueueType.Present) = vkbDevice.get_queue vkb.QueueType.present ∧
        some (inst1.GetQueueFamilyIndex EQueueType.Transfer) =
          vkbDevice.get_queue_index vkb.QueueType.transfer) ∧
    (VulkanInstance.fresh.InitCommandPools 0 sampleDevice).map
        (fun i => [i.GetQueue EQueueType.Graphics, i.GetQueue EQueueType.Compute,
          i.GetQueue EQueueType.Transfer, i.GetQueue EQueueType.Present]) =
      some [101, 102, 102, 104] ∧
    sampleDevice.get_queue vkb.QueueType.transfer = some 103 ∧
    (VulkanInstance.fresh.InitCommandPools 0 sampleDevice).map
        (fun i => [i.GetQueueFamilyIndex EQueueType.Graphics,
          i.GetQueueFamilyIndex EQueueType.Compute,
          i.GetQueueFamilyIndex EQueueType.Transfer,
          i.GetQueueFamilyIndex EQueueType.Present]) =
      some [0, 1, 2, 3] := by
  refine ⟨?_, by decide, rfl, by decide⟩
  intro inst inst1 thread vkbDevice h
  simp only [VulkanInstance.InitCommandPools, VulkanInstance.RequestGraphicsCommandPool,
    VulkanInstance.RequestCommandPool, Option.bind_eq_bind, Option.pure_def] at h
  cases hg : vkbDevice.get_queue vkb.QueueType.graphics <;> rw [hg] at h <;>
    try exact Option.noConfusion h
  cases hgi : vkbDevice.get_queue_index vkb.QueueType.graphics <;> rw [hgi] at h <;>
    try exact Option.noConfusion h
  cases hc : vkbDevice.get_queue vkb.QueueType.compute <;> rw [hc] at h <;>
    try exact Option.noConfusion h
  cases hci : vkbDevice.get_queue_index vkb.QueueType.compute <;> rw [hci] at h <;>
    try exact Option.noConfusion h
  cases ht : vkbDevice.get_queue vkb.QueueType.transfer <;> rw [ht] at h <;>
    try exact Option.noConfusion h
  cases hti : vkbDevice.get_queue_index vkb.QueueType.transfer <;> rw [hti] at h <;>
    try exact Option.noConfusion h
  cases hp : vkbDevice.get_queue vkb.QueueType.present <;> rw [hp] at h <;>
    try exact Option.noConfusion h
  cases hpi : vkbDevice.get_queue_index vkb.QueueType.present <;> rw [hpi] at h <;>
    try exact Option.noConfusion h
  simp only [Option.some_bind, Option.some.injEq] at h
  subst h
  cases htp : inst.threadPool thread <;> simp [VulkanInstance.GetQueue,
    VulkanInstance.GetQueueFamilyIndex]

/-- C14 fails on the code: once a thread has a pool, every later
`RequestCommandPool` on that thread returns this same pool, whatever queue
type and pool list are passed, and allocates and registers nothing. On a
fresh instance the graphics request followed by the compute request of one
thread returns the graphics pool twice, and the compute list stays empty. -/
theorem C14_second_request_returns_first_pool :
    (∀ (inst : VulkanInstance) (thread : Nat) (q1 l1 q2 l2 : EQueueType),
      ((inst.RequestCommandPool thread q1 l1).2.RequestCommandPool thread q2 l2).1 =
        (inst.RequestCommandPool thread q1 l1).1 ∧
      ((inst.RequestCommandPool thread q1 l1).2.RequestCommandPool thread q2 l2).2.allocated =
        (inst.RequestCommandPool thread q1 l1).2.allocated ∧
      ∀ l, ((inst.RequestCommandPool thread q1 l1).2.RequestCommandPool thread q2
          l2).2.cmdPoolLists l =
        (inst.RequestCommandPool thread q1 l1).2.cmdPoolLists l) ∧
    ((VulkanInstance.fresh.RequestGraphicsCommandPool 0).2.RequestComputeCommandPool 0).1 =
      (VulkanInstance.fresh.RequestGraphicsCommandPool 0).1 ∧
    ((VulkanInstance.fresh.RequestGraphicsCommandPool 0).2.RequestComputeCommandPool
      0).1.queueType = EQueueType.Graphics ∧
    ((VulkanInstance.fresh.RequestGraphicsCommandPool 0).2.RequestComputeCommandPool
      0).2.cmdPoolLists EQueueType.Compute = [] ∧
    ((VulkanInstance.fresh.RequestGraphicsCommandPool 0).2.RequestComputeCommandPool
      0).2.cmdPoolLists EQueueType.Graphics = [⟨0, EQueueType.Graphics⟩] := by
  refine ⟨?_, by decide, by decide, by decide, by decide⟩
  intro inst thread q1 l1 q2 l2
  cases h : inst.threadPool thread with
  | none => simp [VulkanInstance.RequestCommandPool, h]
  | some p => simp [VulkanInstance.RequestCommandPool, h]

/-- C17 fails on the code: the constructor reads the whole file into a buffer
of `fileSize / 4` words, so the bytes read fit the buffer, and `codeSize` is
the file size, exactly when the file size is a multiple of 4; for a file of 5
bytes it reads 5 bytes into a buffer of 4 bytes and passes `codeSize` 4. -/
theorem C17_read_exceeds_buffer_unless_multiple_of_four :
    (∀ fileSize : Nat,
      ((ShaderModule.create fileSize).bytesRead ≤ (ShaderModule.create fileSize).bufferBytes ↔
        fileSize % 4 = 0) ∧
      ((ShaderModule.create fileSize).codeSize = fileSize ↔ fileSize % 4 = 0)) ∧
    ShaderModule.create 5 = { bufferBytes := 4, bytesRead := 5, codeSize := 4 } ∧
    ¬ ((ShaderModule.create 5).bytesRead ≤ (ShaderModule.create 5).bufferBytes) ∧
    (ShaderModule.create 5).codeSize ≠ 5 := by
  refine ⟨?_, by decide, by decide, by decide⟩
  intro fileSize
  simp only [ShaderModule.create, sizeofUint32]
  constructor <;> omega

/-- C18 fails on the code: the texture registered under the
`DefaultBlackTexture` alias is built from the array `white`, the same data as
the texture under `DefaultWhiteTexture`; the array `black` is not used. -/
theorem C18_default_black_texture_has_white_texels :
    (InitDefaultEngineResources ⟨[], []⟩).resourceOf Alias.DefaultBlackTexture =
      some (Resource.Texture
        { name := "DefaultBlack", extent := (2, 2), format := VK_FORMAT_R8G8B8A8_SRGB
          dataToTransfer := whiteTexels }) ∧
    (InitDefaultEngineResources ⟨[], []⟩).resourceOf Alias.DefaultWhiteTexture =
      some (Resource.Texture
        { name := "DefaultWhite", extent := (2, 2), format := VK_FORMAT_R8G8B8A8_SRGB
          dataToTransfer := whiteTexels }) ∧
    whiteTexels ≠ blackTexels ∧
    (∀ cache : ResourceCache,
      (Resource.Texture
        { name := "DefaultBlack", extent := (2, 2), format := VK_FORMAT_R8G8B8A8_SRGB
          dataToTransfer := whiteTexels }) ∈ (InitDefaultEngineResources cache).resources ∧
      ∀ t : TextureBuilder, Resource.Texture t ∈ (InitDefaultEngineResources cache).resources →
        Resource.Texture t ∉ cache.resources → t.dataToTransfer = whiteTexels) := by
  refine ⟨by decide, by decide, by decide, ?_⟩
  intro cache
  simp only [InitDefaultEngineResources, ResourceCache.Add, ResourceCache.SetAlias,
    List.append_assoc, List.mem_append, List.mem_cons, List.mem_singleton, List.not_mem_nil,
    or_false, Resource.Texture.injEq, reduceCtorEq, List.cons_append, List.nil_append]
  refine ⟨?_, ?_⟩
  · exact Or.inr (Or.inr trivial)
  · intro t ht hn
    rcases ht with h | h | h
    · exact absurd h hn
    · subst h; rfl
    · subst h; rfl

/-! ## Asset files -/

theorem toBytes_length (n size : Nat) : (toBytes n size).length = size := by
  induction size generalizing n with
  | zero => rfl
  | succ k ih => simp [toBytes, ih]

theorem ofBytes_toBytes (n size : Nat) : ofBytes (toBytes n size) = n % 256 ^ size := by
  induction size generalizing n with
  | zero => simp [toBytes, ofBytes, Nat.mod_one]
  | succ k ih =>
    simp only [toBytes, ofBytes, ih]
    rw [pow_succ', Nat.mod_mul]

theorem ofBytes_toBytes_of_lt (n size : Nat) (h : n < 256 ^ size) :
    ofBytes (toBytes n size) = n := by
  rw [ofBytes_toBytes, Nat.mod_eq_of_lt h]

/-- Reading `n` bytes from a good stream that starts with `n` bytes `x` stores
`x` and leaves the rest. -/
theorem IStream.read_prefix (x rest dst : List Nat) (n : Nat) (hx : x.length = n)
    (hd : dst.length = n) :
    IStream.read { remaining := x ++ rest, good := true } dst n =
      (x, { remaining := rest, good := true }) := by
  have h1 : n ≤ (x ++ rest).length := by simp [hx]
  have h2 : List.drop n dst = [] := by simp [← hd]
  simp only [IStream.read, if_true, h1, h2, List.append_nil]
  subst hx
  simp

/-- Reading from a stream with nothing left stores nothing. -/
theorem IStream.read_exhausted (s : IStream) (dst : List Nat) (n : Nat)
    (hs : s.remaining = []) :
    (s.read dst n).1 = dst ∧ (s.read dst n).2.remaining = [] := by
  unfold IStream.read
  by_cases hg : s.good = true
  · by_cases hn : n ≤ s.remaining.length
    · have h0 : n = 0 := by simpa [hs] using hn
      subst h0
      simp [hg, hs]
    · have h0 : n ≠ 0 := by
        intro h0
        apply hn
        simp [h0]
      simp [hg, hs, h0]
  · simp [hg, hs]

/-- What `LoadBinary` returns after `SaveBinary`: type identifier, version
and the sizes of metadata and blob are those of the asset saved; the metadata
and blob bytes are zero. -/
theorem LoadBinary_SaveBinary (idLen verSize : Nat) (fs : FileSystem) (path : String)
    (a : Asset) (hid : a.TypeIdentifier.length = idLen) (hver : a.Version < 256 ^ verSize)
    (hm : a.Metadata.length < 256 ^ sizeofSizeT) (hb : a.Blob.length < 256 ^ sizeofSizeT) :
    LoadBinary idLen verSize (SaveBinary idLen verSize fs path a).2 path =
      some { TypeIdentifier := a.TypeIdentifier, Version := a.Version
             Metadata := List.replicate a.Metadata.length 0
             Blob := List.replicate a.Blob.length 0 } := by
  have htake : a.TypeIdentifier.take idLen = a.TypeIdentifier := by
    rw [← hid]; exact List.take_length _
  simp only [LoadBinary, SaveBinary, if_true, List.nil_append, htake, List.append_assoc,
    List.length_nil, Nat.sub_zero]
  rw [IStream.read_prefix a.TypeIdentifier _ _ idLen hid (by simp)]
  simp only []
  rw [IStream.read_prefix (toBytes a.Version verSize) _ _ verSize (toBytes_length _ _)
    (toBytes_length _ _)]
  simp only []
  have h3 := IStream.read_prefix (toBytes a.Metadata.length sizeofSizeT)
    (toBytes a.Blob.length sizeofSizeT) (toBytes 0 sizeofSizeT) sizeofSizeT
    (toBytes_length _ _) (toBytes_length _ _)
  rw [h3]
  simp only []
  have h4 := IStream.read_prefix (toBytes a.Blob.length sizeofSizeT) []
    (toBytes 0 sizeofSizeT) sizeofSizeT (toBytes_length _ _) (toBytes_length _ _)
  rw [List.append_nil] at h4
  rw [h4]
  simp only [ofBytes_toBytes_of_lt _ _ hver, ofBytes_toBytes_of_lt _ _ hm,
    ofBytes_toBytes_of_lt _ _ hb]
  have h5 := IStream.read_exhausted { remaining := [], good := true }
    (List.replicate a.Metadata.length 0) a.Metadata.length rfl
  have h6 := IStream.read_exhausted
    (IStream.read { remaining := [], good := true }
      (List.replicate a.Metadata.length 0) a.Metadata.length).2
    (List.replicate a.Blob.length 0) a.Blob.length h5.2
  rw [Option.some.injEq, Asset.mk.injEq]
  exact ⟨rfl, rfl, h5.1, h6.1⟩

/-- C16 fails on the code: `SaveBinary` writes the type identifier, the
version and the two sizes, but neither the metadata bytes nor the blob bytes,
so `LoadBinary` returns the asset with metadata and blob of the saved sizes
filled with zero bytes; an asset with a non-zero metadata or blob byte is not
returned by load after save. -/
theorem C16_load_after_save_loses_metadata_and_blob :
    (∀ (idLen verSize : Nat) (fs : FileSystem) (path : String) (a : Asset),
      a.TypeIdentifier.length = idLen → a.Version < 256 ^ verSize →
      a.Metadata.length < 256 ^ sizeofSizeT → a.Blob.length < 256 ^ sizeofSizeT →
      (SaveBinary idLen verSize fs path a).2 path =
        some (a.TypeIdentifier ++ toBytes a.Version verSize ++
          toBytes a.Metadata.length sizeofSizeT ++ toBytes a.Blob.length sizeofSizeT) ∧
      LoadBinary idLen verSize (SaveBinary idLen verSize fs path a).2 path =
        some { TypeIdentifier := a.TypeIdentifier, Version := a.Version
               Metadata := List.replicate a.Metadata.length 0
               Blob := List.replicate a.Blob.length 0 }) ∧
    LoadBinary 4 4 (SaveBinary 4 4 (fun _ => none) "asset.bin" sampleAsset).2 "asset.bin" =
      some { TypeIdentifier := [65, 83, 69, 84], Version := 1, Metadata := [0],
             Blob := [0, 0] } ∧
    LoadBinary 4 4 (SaveBinary 4 4 (fun _ => none) "asset.bin" sampleAsset).2 "asset.bin" ≠
      some sampleAsset := by
  refine ⟨?_, by decide, by decide⟩
  intro idLen verSize fs path a hid hver hm hb
  refine ⟨?_, LoadBinary_SaveBinary idLen verSize fs path a hid hver hm hb⟩
  have htake : a.TypeIdentifier.take idLen = a.TypeIdentifier := by
    rw [← hid]; exact List.take_length _
  simp [SaveBinary, htake]

end sy
